import Mathlib

/-!
Verification of the Askyia dynamic workflow execution engine.

This file gives a shallow embedding, in Lean 4, of the core of the
backend (`backend/app/services/`): the topological scheduler and graph
parser of `workflow_executor.py`, the execution log service of
`log_service.py`, the knowledge-base retrieval component of
`components/knowledge_base.py`, the LLM engine component of
`components/llm_engine.py` and the provider-fallback generation service
of `llm_service.py`.  External capabilities (embedding, vector search,
LLM providers, web search) are modelled as function-valued parameters
returning `Except String`, mirroring Python calls that may raise.
Python `uuid4()` / `utcnow()` values are modelled as a deterministic
fresh supply threaded through the service state; no verified property
depends on the value of an id or timestamp.
-/

namespace Askyia

/-! ## Raw workflow definition (nodes / edges as they appear in the JSON) -/

/-- One element of `definition["nodes"]`: we keep the two fields the
scheduler reads, `id` and `type` (`node.get("id", "")`,
`node.get("type", "")`); a missing key is the default `""`. -/
structure RawNode where
  id : String
  type : String
deriving DecidableEq

/-- One element of `definition["edges"]`: `edge.get("source", "")` and
`edge.get("target", "")`. -/
structure RawEdge where
  source : String
  target : String
deriving DecidableEq

/-- `WorkflowExecutor.NODE_TYPE_MAP` from `workflow_executor.py`, verbatim. -/
def NODE_TYPE_MAP : List (String × String) :=
  [("input", "user_query"), ("userQuery", "user_query"),
   ("user_query", "user_query"), ("UserQuery", "user_query"),
   ("knowledgeBase", "knowledge_base"), ("knowledge_base", "knowledge_base"),
   ("KnowledgeBase", "knowledge_base"),
   ("llm", "llm_engine"), ("llmEngine", "llm_engine"),
   ("llm_engine", "llm_engine"), ("LLM", "llm_engine"),
   ("output", "output"), ("Output", "output")]

/-- `NODE_TYPE_MAP.get(node_type)`. -/
def nodeTypeMapGet (t : String) : Option String :=
  NODE_TYPE_MAP.lookup t

/-- A raw node is recognized when its type string maps to a component type. -/
def recognized (n : RawNode) : Bool :=
  (nodeTypeMapGet n.type).isSome

/-- Keep the first occurrence of each element (Python `dict` key order:
a key keeps its first insertion position). -/
def firstDedupGo : List String → List String → List String
  | [], _ => []
  | x :: xs, seen =>
      if x ∈ seen then firstDedupGo xs seen else x :: firstDedupGo xs (x :: seen)

def firstDedup (l : List String) : List String := firstDedupGo l []

/-- The keys of `node_types` in insertion order: ids of recognized nodes,
first occurrence kept (`_parse_workflow` lines 111-121). -/
def validIds (nodes : List RawNode) : List String :=
  firstDedup ((nodes.filter recognized).map RawNode.id)

/-- Edges whose endpoints are both recognized node ids
(`_topological_sort` line 164 keeps exactly these). -/
def validEdges (nodes : List RawNode) (edges : List RawEdge) : List RawEdge :=
  edges.filter (fun e =>
    decide (e.source ∈ validIds nodes) && decide (e.target ∈ validIds nodes))

/-- `adjacency[s]`: targets of retained edges out of `s`, in edge-list
order (the loop appends `target` to `adjacency[source]`). -/
def adjacencyOf (ve : List RawEdge) (s : String) : List String :=
  (ve.filter (fun e => decide (e.source = s))).map RawEdge.target

/-- The in-degree table after the edge loop: number of retained edges
into `v`.  Python stores these in `in_degree`; we use `Int` because the
loop later decrements below zero on multi-edges. -/
def degInit (ve : List RawEdge) (v : String) : Int :=
  ((ve.filter (fun e => decide (e.target = v))).length : Int)

/-- Number of retained edges into `v` whose source has not yet been
popped (ghost quantity used by the invariants). -/
def remCount (ve : List RawEdge) (res : List String) (v : String) : Int :=
  ((ve.filter (fun e => decide (e.target = v) && decide (e.source ∉ res))).length : Int)

/-- Occurrences of `v` in a list (ghost quantity). -/
def cnt (v : String) (l : List String) : Nat :=
  (l.filter (fun x => decide (x = v))).length

/-- The inner `for neighbor in adjacency.get(node_id, [])` loop of
Kahn's algorithm: decrement each neighbour's in-degree and append it to
the queue when the new degree is exactly zero. -/
def relax (deg : String → Int) (queue : List String) :
    List String → (String → Int) × List String
  | [] => (deg, queue)
  | v :: vs =>
      relax (fun x => if x = v then deg v - 1 else deg x)
        (if deg v - 1 = 0 then queue ++ [v] else queue) vs

/-- The `while queue:` loop of `_topological_sort` (lines 172-179).
`fuel` is a structural bound on the number of iterations; the adequacy
argument inside `kahnLoop_spec` shows that with `fuel = number of
recognized nodes` the queue always empties before the fuel does, so
this equals the Python loop (which terminates for the same reason). -/
def kahnLoop (adj : String → List String) :
    Nat → (String → Int) → List String → List String → List String
  | _, _, [], res => res.reverse
  | 0, _, _ :: _, res => res.reverse
  | fuel + 1, deg, n :: rest, res =>
      kahnLoop adj fuel (relax deg rest (adj n)).1 (relax deg rest (adj n)).2 (n :: res)

/-- The seed `queue = [node_id for node_id, degree in in_degree.items()
if degree == 0]`.  `in_degree` was populated by iterating over
`valid_node_ids = set(node_types.keys())`; `σ` is the iteration order
of that Python set — an unspecified permutation of the recognized ids
(CPython string hashing, not declaration order). -/
def seedQueue (σ : List String) (ve : List RawEdge) : List String :=
  σ.filter (fun v => decide (degInit ve v = 0))

/-- `WorkflowExecutor._topological_sort(nodes, edges, node_types)`,
parametrised by the set-iteration order `σ` of `valid_node_ids`. -/
def topological_sort (σ : List String) (nodes : List RawNode)
    (edges : List RawEdge) : List String :=
  let ve := validEdges nodes edges
  kahnLoop (adjacencyOf ve) (validIds nodes).length (degInit ve) (seedQueue σ ve) []

/-! ## Basic lemmas about the graph-parsing helpers -/

theorem firstDedupGo_mem (l : List String) :
    ∀ seen v, v ∈ firstDedupGo l seen ↔ v ∈ l ∧ v ∉ seen := by
  induction l with
  | nil => intro seen v; simp [firstDedupGo]
  | cons x xs ih =>
      intro seen v
      by_cases hx : x ∈ seen
      · rw [firstDedupGo, if_pos hx, ih]
        simp only [List.mem_cons]
        constructor
        · rintro ⟨hv, hs⟩; exact ⟨Or.inr hv, hs⟩
        · rintro ⟨hv | hv, hs⟩
          · subst hv; exact absurd hx hs
          · exact ⟨hv, hs⟩
      · rw [firstDedupGo, if_neg hx]
        simp only [List.mem_cons, ih, List.mem_cons, not_or]
        constructor
        · rintro (hv | ⟨hv, hne, hs⟩)
          · subst hv; exact ⟨Or.inl rfl, hx⟩
          · exact ⟨Or.inr hv, hs⟩
        · rintro ⟨hv | hv, hs⟩
          · exact Or.inl hv
          · by_cases hvx : v = x
            · exact Or.inl hvx
            · exact Or.inr ⟨hv, hvx, hs⟩

theorem firstDedupGo_nodup (l : List String) : ∀ seen, (firstDedupGo l seen).Nodup := by
  induction l with
  | nil => intro seen; simp [firstDedupGo]
  | cons x xs ih =>
      intro seen
      by_cases hx : x ∈ seen
      · rw [firstDedupGo, if_pos hx]; exact ih seen
      · rw [firstDedupGo, if_neg hx]
        refine List.nodup_cons.2 ⟨?_, ih _⟩
        intro hmem
        exact ((firstDedupGo_mem xs (x :: seen) x).1 hmem).2 (List.mem_cons_self x seen)

theorem firstDedup_mem {l : List String} {v : String} : v ∈ firstDedup l ↔ v ∈ l := by
  rw [firstDedup, firstDedupGo_mem]; simp

theorem firstDedup_nodup (l : List String) : (firstDedup l).Nodup :=
  firstDedupGo_nodup l []

theorem validIds_nodup (nodes : List RawNode) : (validIds nodes).Nodup :=
  firstDedup_nodup _

theorem validEdges_mem {nodes : List RawNode} {edges : List RawEdge} {e : RawEdge} :
    e ∈ validEdges nodes edges ↔
      e ∈ edges ∧ e.source ∈ validIds nodes ∧ e.target ∈ validIds nodes := by
  simp [validEdges, List.mem_filter]

theorem adjacencyOf_mem {ve : List RawEdge} {n v : String}
    (h : v ∈ adjacencyOf ve n) : ∃ e ∈ ve, e.source = n ∧ e.target = v := by
  simp only [adjacencyOf, List.mem_map, List.mem_filter, decide_eq_true_eq] at h
  obtain ⟨e, ⟨he, hs⟩, ht⟩ := h
  exact ⟨e, he, hs, ht⟩

theorem remCount_nonneg (ve : List RawEdge) (res : List String) (v : String) :
    0 ≤ remCount ve res v := by
  unfold remCount; omega

theorem remCount_eq_zero {ve : List RawEdge} {res : List String} {v : String}
    (h : remCount ve res v = 0) :
    ∀ e ∈ ve, e.target = v → e.source ∈ res := by
  intro e he ht
  by_contra hs
  have hmem : e ∈ ve.filter (fun e => decide (e.target = v) && decide (e.source ∉ res)) :=
    List.mem_filter.2 ⟨he, by simp [ht, hs]⟩
  have hpos : 0 < (ve.filter (fun e => decide (e.target = v) && decide (e.source ∉ res))).length :=
    List.length_pos.2 (List.ne_nil_of_mem hmem)
  unfold remCount at h
  omega

theorem remCount_congr (ve : List RawEdge) {r1 r2 : List String}
    (h : ∀ x, x ∈ r1 ↔ x ∈ r2) (v : String) :
    remCount ve r1 v = remCount ve r2 v := by
  unfold remCount
  congr 2
  apply List.filter_congr
  intro e _
  simp [h e.source]

theorem degInit_eq (ve : List RawEdge) (v : String) :
    degInit ve v = remCount ve [] v := by
  unfold degInit remCount
  congr 2
  apply List.filter_congr
  intro e _
  simp

theorem cnt_cons (v u : String) (us : List String) :
    cnt v (u :: us) = (if u = v then 1 else 0) + cnt v us := by
  by_cases h : u = v
  · simp [cnt, List.filter_cons, h]
    omega
  · simp [cnt, List.filter_cons, h]

/-- Counting a target in the adjacency list of `n` counts the retained
multi-edges from `n` to `v`. -/
theorem cnt_adjacency (n v : String) (ve : List RawEdge) :
    cnt v (adjacencyOf ve n) =
      (ve.filter (fun e => decide (e.target = v) && decide (e.source = n))).length := by
  induction ve with
  | nil => rfl
  | cons e es ih =>
      by_cases hs : e.source = n <;> by_cases ht : e.target = v <;>
        simp [cnt, adjacencyOf, List.filter_cons, hs, ht] at ih ⊢ <;> omega

theorem length_filter_split {α : Type} (l : List α) (p q : α → Bool) :
    (l.filter (fun a => p a && q a)).length + (l.filter (fun a => p a && !q a)).length
      = (l.filter p).length := by
  induction l with
  | nil => rfl
  | cons x xs ih =>
      by_cases hp : p x <;> by_cases hq : q x <;>
        simp [List.filter_cons, hp, hq] <;> omega

/-- Popping `n` removes exactly the multi-edges out of `n` from every
remaining in-degree count. -/
theorem remCount_cons (ve : List RawEdge) (res : List String) (n v : String)
    (hn : n ∉ res) :
    remCount ve (n :: res) v + (cnt v (adjacencyOf ve n) : Int) = remCount ve res v := by
  rw [cnt_adjacency]
  have hsplit := length_filter_split ve
    (fun e => decide (e.target = v) && decide (e.source ∉ res))
    (fun e => decide (e.source = n))
  have h1 : ve.filter (fun e =>
        (decide (e.target = v) && decide (e.source ∉ res)) && decide (e.source = n))
      = ve.filter (fun e => decide (e.target = v) && decide (e.source = n)) := by
    apply List.filter_congr
    intro e _
    by_cases ht : e.target = v <;> by_cases hs : e.source = n <;> simp [ht, hs, hn]
  have h2 : ve.filter (fun e =>
        (decide (e.target = v) && decide (e.source ∉ res)) && !decide (e.source = n))
      = ve.filter (fun e => decide (e.target = v) && decide (e.source ∉ n :: res)) := by
    apply List.filter_congr
    intro e _
    by_cases ht : e.target = v <;> by_cases hs : e.source = n <;>
      by_cases hr : e.source ∈ res <;> simp [ht, hs, hr]
  rw [h1, h2] at hsplit
  unfold remCount
  omega

/-! ## Lemmas about the inner relaxation loop -/

theorem relax_deg (ns : List String) :
    ∀ deg queue v, ((relax deg queue ns).1) v = deg v - (cnt v ns : Int) := by
  induction ns with
  | nil => intro deg q v; simp [relax, cnt]
  | cons u us ih =>
      intro deg q v
      rw [relax, ih, cnt_cons]
      by_cases hv : v = u
      · subst hv; rw [if_pos rfl, if_pos rfl]; push_cast; ring
      · rw [if_neg hv, if_neg (fun h => hv h.symm)]; push_cast; ring

theorem relax_queue_front (ns : List String) :
    ∀ deg queue, queue <+: (relax deg queue ns).2 := by
  induction ns with
  | nil => intro deg q; exact List.prefix_rfl
  | cons u us ih =>
      intro deg q
      rw [relax]
      by_cases hd : deg u - 1 = 0
      · rw [if_pos hd]
        exact (List.prefix_append q [u]).trans (ih _ _)
      · rw [if_neg hd]
        exact ih _ _

theorem relax_queue_mem (ns : List String) :
    ∀ deg queue v, v ∈ (relax deg queue ns).2 → v ∈ queue ∨ v ∈ ns := by
  induction ns with
  | nil => intro deg q v h; exact Or.inl (by simpa [relax] using h)
  | cons u us ih =>
      intro deg q v h
      rw [relax] at h
      rcases ih _ _ _ h with hq | hu
      · by_cases hd : deg u - 1 = 0
        · rw [if_pos hd] at hq
          rcases List.mem_append.1 hq with h1 | h1
          · exact Or.inl h1
          · simp only [List.mem_singleton] at h1
            subst h1
            exact Or.inr (List.mem_cons_self _ _)
        · rw [if_neg hd] at hq
          exact Or.inl hq
      · exact Or.inr (List.mem_cons_of_mem _ hu)

theorem relax_new_nonpos (ns : List String) :
    ∀ deg queue v, v ∈ (relax deg queue ns).2 →
      v ∈ queue ∨ (relax deg queue ns).1 v ≤ 0 := by
  induction ns with
  | nil => intro deg q v h; exact Or.inl (by simpa [relax] using h)
  | cons u us ih =>
      intro deg q v h
      rw [relax] at h ⊢
      rcases ih _ _ _ h with hq | hle
      · by_cases hd : deg u - 1 = 0
        · rw [if_pos hd] at hq
          rcases List.mem_append.1 hq with h1 | h1
          · exact Or.inl h1
          · simp only [List.mem_singleton] at h1
            subst h1
            right
            rw [relax_deg]
            show (if v = v then deg v - 1 else deg v) - (cnt v us : Int) ≤ 0
            rw [if_pos rfl]
            omega
        · rw [if_neg hd] at hq
          exact Or.inl hq
      · exact Or.inr hle

theorem relax_hit_zero_mem (ns : List String) :
    ∀ deg queue v, 0 < deg v → (relax deg queue ns).1 v = 0 →
      v ∈ (relax deg queue ns).2 := by
  induction ns with
  | nil =>
      intro deg q v hpos h0
      have h0' : deg v = 0 := h0
      exact absurd h0' (by omega)
  | cons u us ih =>
      intro deg q v hpos h0
      rw [relax] at h0 ⊢
      by_cases hv : v = u
      · subst hv
        by_cases hd : deg v - 1 = 0
        · rw [if_pos hd]
          have hpre := relax_queue_front us
            (fun x => if x = v then deg v - 1 else deg x) (q ++ [v])
          rw [if_pos hd] at h0
          exact hpre.subset (by simp)
        · apply ih
          · show 0 < (if v = v then deg v - 1 else deg v)
            rw [if_pos rfl]
            omega
          · exact h0
      · apply ih
        · show 0 < (if v = u then deg u - 1 else deg v)
          rw [if_neg hv]
          exact hpos
        · exact h0

/-- The relaxation step preserves the master invariant: the queue plus
the already-popped list `R` stays duplicate-free and every member keeps
a non-positive degree. -/
theorem relax_inv (ns : List String) :
    ∀ deg queue R, (queue ++ R).Nodup → (∀ x ∈ queue ++ R, deg x ≤ 0) →
      ((relax deg queue ns).2 ++ R).Nodup ∧
        (∀ x ∈ (relax deg queue ns).2 ++ R, (relax deg queue ns).1 x ≤ 0) := by
  induction ns with
  | nil =>
      intro deg q R h1 h2
      rw [relax]
      exact ⟨h1, h2⟩
  | cons u us ih =>
      intro deg q R h1 h2
      rw [relax]
      by_cases hd : deg u - 1 = 0
      · rw [if_pos hd]
        have hu : u ∉ q ++ R := by
          intro hmem
          have := h2 u hmem
          omega
        apply ih
        · have heq : (q ++ [u]) ++ R = q ++ (u :: R) := by simp
          rw [heq]
          exact (List.perm_middle.nodup_iff).2 (List.nodup_cons.2 ⟨hu, h1⟩)
        · intro x hx
          by_cases hxu : x = u
          · subst hxu
            show (if x = x then deg x - 1 else deg x) ≤ 0
            rw [if_pos rfl]
            omega
          · show (if x = u then deg u - 1 else deg x) ≤ 0
            rw [if_neg hxu]
            apply h2
            have hx2 : x ∈ q ++ (u :: R) := by simpa using hx
            rcases List.mem_append.1 hx2 with h | h
            · exact List.mem_append.2 (Or.inl h)
            · rcases List.mem_cons.1 h with h' | h'
              · exact absurd h' hxu
              · exact List.mem_append.2 (Or.inr h')
      · rw [if_neg hd]
        apply ih
        · exact h1
        · intro x hx
          by_cases hxu : x = u
          · subst hxu
            show (if x = x then deg x - 1 else deg x) ≤ 0
            rw [if_pos rfl]
            have := h2 x hx
            omega
          · show (if x = u then deg u - 1 else deg x) ≤ 0
            rw [if_neg hxu]
            exact h2 x hx

/-! ## The Kahn loop invariant and its preservation -/

/-- Invariant of the `while queue:` loop, between iterations.
`valid` is the recognized id list, `ve` the retained edges, `res` the
reversed partial result. -/
structure KahnInv (valid : List String) (ve : List RawEdge)
    (deg : String → Int) (queue res : List String) : Prop where
  degEq : ∀ v, deg v = remCount ve res v
  nodup : (queue ++ res).Nodup
  nonpos : ∀ v ∈ queue ++ res, deg v ≤ 0
  memValid : ∀ v ∈ queue ++ res, v ∈ valid
  qSources : ∀ v ∈ queue, ∀ e ∈ ve, e.target = v → e.source ∈ res
  ordRes : ∀ e ∈ ve, ∀ pre suf, res = pre ++ e.target :: suf → e.source ∈ suf
  negDeg : ∀ v ∈ valid, v ∉ queue ++ res → deg v ≠ 0

theorem nodup_subset_length {l L : List String} (hn : l.Nodup)
    (hs : ∀ x ∈ l, x ∈ L) : l.length ≤ L.length :=
  (List.subperm_of_subset hn fun x hx => hs x hx).length_le

/-- Conclusions available once the queue has drained. -/
theorem kahn_drained (valid : List String) (ve : List RawEdge)
    (deg : String → Int) (res : List String)
    (inv : KahnInv valid ve deg [] res) :
    (∀ v ∈ ([] : List String) ++ res, v ∈ res) ∧ res.Nodup ∧
      (∀ v ∈ res, v ∈ valid) ∧
      (∀ e ∈ ve, ∀ pre suf, res = pre ++ e.target :: suf → e.source ∈ suf) ∧
      (∀ v ∈ valid, v ∉ res → 1 ≤ remCount ve res v) := by
  refine ⟨?_, ?_, ?_, inv.ordRes, ?_⟩
  · intro v hv; simpa using hv
  · simpa using inv.nodup
  · intro v hv; exact inv.memValid v (by simpa using hv)
  · intro v hval hout
    have hne := inv.negDeg v hval (by simpa using hout)
    have heq := inv.degEq v
    have hnn := remCount_nonneg ve res v
    omega

/-- One full iteration of the loop preserves the invariant. -/
theorem kahn_step (valid : List String) (ve : List RawEdge)
    (hve : ∀ e ∈ ve, e.source ∈ valid ∧ e.target ∈ valid)
    (deg : String → Int) (n : String) (rest res : List String)
    (inv : KahnInv valid ve deg (n :: rest) res) :
    KahnInv valid ve (relax deg rest (adjacencyOf ve n)).1
      (relax deg rest (adjacencyOf ve n)).2 (n :: res) := by
  have hnq : n ∈ n :: rest ++ res := List.mem_cons_self n _
  have hnres : n ∉ res := by
    have h := inv.nodup
    rw [List.cons_append, List.nodup_cons] at h
    exact fun hc => h.1 (List.mem_append.2 (Or.inr hc))
  have hperm : List.Perm ((n :: rest) ++ res) (rest ++ n :: res) := by
    simpa using (@List.perm_middle _ n rest res).symm
  -- the degree function after the relaxation matches the new ghost count
  have hdeg2 : ∀ v, (relax deg rest (adjacencyOf ve n)).1 v = remCount ve (n :: res) v := by
    intro v
    rw [relax_deg, inv.degEq v]
    have := remCount_cons ve res n v hnres
    omega
  -- duplicate-freedom and non-positivity, via the relaxation invariant
  have hpair := relax_inv (adjacencyOf ve n) deg rest (n :: res)
    (hperm.nodup_iff.1 inv.nodup)
    (fun x hx => inv.nonpos x (hperm.symm.subset hx))
  refine ⟨hdeg2, hpair.1, hpair.2, ?_, ?_, ?_, ?_⟩
  · -- membership in valid
    intro v hv
    rcases List.mem_append.1 hv with hq | hr
    · rcases relax_queue_mem _ _ _ _ hq with h | h
      · exact inv.memValid v (List.mem_cons_of_mem _ (List.mem_append.2 (Or.inl h)))
      · obtain ⟨e, he, _, ht⟩ := adjacencyOf_mem h
        exact ht ▸ (hve e he).2
    · rcases List.mem_cons.1 hr with h | h
      · exact h ▸ inv.memValid n hnq
      · exact inv.memValid v (List.mem_cons_of_mem _ (List.mem_append.2 (Or.inr h)))
  · -- queue members have all their in-edges resolved
    intro v hv e he ht
    rcases relax_new_nonpos _ _ _ _ hv with h | h
    · exact List.mem_cons_of_mem _
        (inv.qSources v (List.mem_cons_of_mem _ h) e he ht)
    · have h0 : remCount ve (n :: res) v = 0 := by
        have := hdeg2 v
        have := remCount_nonneg ve (n :: res) v
        omega
      exact remCount_eq_zero h0 e he ht
  · -- order invariant on the popped list
    intro e he pre suf hsplit
    match pre, hsplit with
    | [], hsplit =>
        have h1 : n = e.target ∧ res = suf := by
          rw [List.nil_append] at hsplit
          exact List.cons.inj hsplit
        exact h1.2 ▸ inv.qSources n (List.mem_cons_self n rest) e he h1.1.symm
    | x :: pre2, hsplit =>
        have h1 : n = x ∧ res = pre2 ++ e.target :: suf := List.cons.inj hsplit
        exact inv.ordRes e he pre2 suf h1.2
  · -- nodes not yet seen keep a non-zero degree
    intro v hval hv
    have hvn : v ≠ n := by
      intro hc
      exact hv (List.mem_append.2 (Or.inr (hc ▸ List.mem_cons_self n res)))
    have hvq2 : v ∉ (relax deg rest (adjacencyOf ve n)).2 :=
      fun hc => hv (List.mem_append.2 (Or.inl hc))
    have hvrest : v ∉ rest :=
      fun hc => hvq2 ((relax_queue_front _ _ _).subset hc)
    have hvres : v ∉ res :=
      fun hc => hv (List.mem_append.2 (Or.inr (List.mem_cons_of_mem _ hc)))
    have hold : v ∉ (n :: rest) ++ res := by
      intro hc
      rcases List.mem_append.1 hc with h | h
      · rcases List.mem_cons.1 h with h' | h'
        · exact hvn h'
        · exact hvrest h'
      · exact hvres h
    have hne := inv.negDeg v hval hold
    have hpos : 0 < deg v := by
      have := inv.degEq v
      have := remCount_nonneg ve res v
      omega
    intro hc
    exact hvq2 (relax_hit_zero_mem _ _ _ _ hpos hc)

/-- Full correctness of the fuelled Kahn loop: with the invariant and
enough fuel, the loop drains the queue and returns a list with the
stated properties (so the fuel bound is never the reason it stops —
exactly the Python termination argument). -/
theorem kahnLoop_spec (valid : List String) (ve : List RawEdge)
    (hve : ∀ e ∈ ve, e.source ∈ valid ∧ e.target ∈ valid) :
    ∀ (fuel : Nat) (deg : String → Int) (queue res : List String),
      KahnInv valid ve deg queue res →
      valid.length ≤ fuel + res.length →
      ∃ resF, kahnLoop (adjacencyOf ve) fuel deg queue res = resF.reverse ∧
        (∀ v ∈ queue ++ res, v ∈ resF) ∧
        resF.Nodup ∧
        (∀ v ∈ resF, v ∈ valid) ∧
        (∀ e ∈ ve, ∀ pre suf, resF = pre ++ e.target :: suf → e.source ∈ suf) ∧
        (∀ v ∈ valid, v ∉ resF → 1 ≤ remCount ve resF v) := by
  intro fuel
  induction fuel with
  | zero =>
      intro deg queue res inv hbud
      match queue with
      | [] =>
          obtain ⟨h1, h2, h3, h4, h5⟩ := kahn_drained valid ve deg res inv
          exact ⟨res, rfl, h1, h2, h3, h4, h5⟩
      | n :: rest =>
          exfalso
          have hlen := nodup_subset_length inv.nodup inv.memValid
          simp only [List.length_append, List.length_cons] at hlen
          omega
  | succ fuel ih =>
      intro deg queue res inv hbud
      match queue with
      | [] =>
          obtain ⟨h1, h2, h3, h4, h5⟩ := kahn_drained valid ve deg res inv
          exact ⟨res, rfl, h1, h2, h3, h4, h5⟩
      | n :: rest =>
          have inv2 := kahn_step valid ve hve deg n rest res inv
          have hbud2 : valid.length ≤ fuel + (n :: res).length := by
            simp only [List.length_cons] at hbud ⊢
            omega
          obtain ⟨resF, heq, hmem, hnd, hval, hord, hleft⟩ :=
            ih _ _ _ inv2 hbud2
          refine ⟨resF, ?_, ?_, hnd, hval, hord, hleft⟩
          · rw [kahnLoop]; exact heq
          · intro v hv
            rcases List.mem_append.1 hv with hq | hr
            · rcases List.mem_cons.1 hq with h | h
              · exact hmem v (List.mem_append.2
                  (Or.inr (h ▸ List.mem_cons_self n res)))
              · exact hmem v (List.mem_append.2
                  (Or.inl ((relax_queue_front _ _ _).subset h)))
            · exact hmem v (List.mem_append.2
                (Or.inr (List.mem_cons_of_mem _ hr)))

/-! ## Top-level properties of the topological sort -/

theorem seedQueue_mem {σ : List String} {ve : List RawEdge} {v : String} :
    v ∈ seedQueue σ ve ↔ v ∈ σ ∧ degInit ve v = 0 := by
  simp [seedQueue, List.mem_filter]

/-- The invariant holds at loop entry. -/
theorem init_inv (σ : List String) (nodes : List RawNode) (edges : List RawEdge)
    (hσ : List.Perm σ (validIds nodes)) :
    KahnInv (validIds nodes) (validEdges nodes edges)
      (degInit (validEdges nodes edges)) (seedQueue σ (validEdges nodes edges)) [] := by
  have hσn : σ.Nodup := hσ.symm.nodup_iff.1 (validIds_nodup nodes)
  refine ⟨?_, ?_, ?_, ?_, ?_, ?_, ?_⟩
  · intro v
    exact degInit_eq _ v
  · simpa using hσn.filter _
  · intro v hv
    have h := (seedQueue_mem.1 (by simpa using hv)).2
    omega
  · intro v hv
    exact hσ.subset (seedQueue_mem.1 (by simpa using hv)).1
  · intro v hv e he ht
    have h0 : remCount (validEdges nodes edges) [] v = 0 := by
      rw [← degInit_eq]
      exact (seedQueue_mem.1 hv).2
    exact remCount_eq_zero h0 e he ht
  · intro e _ pre suf hsplit
    exact absurd hsplit (by simp)
  · intro v hval hv
    intro hc
    exact (by simpa using hv : v ∉ seedQueue σ (validEdges nodes edges))
      (seedQueue_mem.2 ⟨hσ.symm.subset hval, hc⟩)

/-- All facts needed by the claims, packaged once: the computed order is
duplicate-free, contains only recognized ids, contains everything the
queue ever saw, respects every retained edge, and every recognized id
left out still has a retained in-edge from another left-out id. -/
theorem topological_sort_props (σ : List String) (nodes : List RawNode)
    (edges : List RawEdge) (hσ : List.Perm σ (validIds nodes)) :
    (topological_sort σ nodes edges).Nodup ∧
      (∀ v ∈ topological_sort σ nodes edges, v ∈ validIds nodes) ∧
      (∀ e ∈ validEdges nodes edges, ∀ pre suf,
        topological_sort σ nodes edges = pre ++ e.target :: suf → e.source ∈ pre) ∧
      (∀ v ∈ seedQueue σ (validEdges nodes edges), v ∈ topological_sort σ nodes edges) ∧
      (∀ v ∈ validIds nodes, v ∉ topological_sort σ nodes edges →
        1 ≤ remCount (validEdges nodes edges) (topological_sort σ nodes edges) v) := by
  have hve : ∀ e ∈ validEdges nodes edges,
      e.source ∈ validIds nodes ∧ e.target ∈ validIds nodes := by
    intro e he
    exact (validEdges_mem.1 he).2
  obtain ⟨resF, heq, hmem, hnd, hval, hord, hleft⟩ :=
    kahnLoop_spec (validIds nodes) (validEdges nodes edges) hve
      (validIds nodes).length (degInit (validEdges nodes edges))
      (seedQueue σ (validEdges nodes edges)) []
      (init_inv σ nodes edges hσ) (by simp)
  have hout : topological_sort σ nodes edges = resF.reverse := heq
  have houtmem : ∀ v, v ∈ topological_sort σ nodes edges ↔ v ∈ resF := by
    intro v
    rw [hout, List.mem_reverse]
  refine ⟨?_, ?_, ?_, ?_, ?_⟩
  · rw [hout, List.nodup_reverse]
    exact hnd
  · intro v hv
    exact hval v ((houtmem v).1 hv)
  · intro e he pre suf hsplit
    have hrev : resF = suf.reverse ++ e.target :: pre.reverse := by
      have : resF = (topological_sort σ nodes edges).reverse := by
        rw [hout, List.reverse_reverse]
      rw [this, hsplit]
      simp
    have := hord e he suf.reverse pre.reverse hrev
    simpa using this
  · intro v hv
    exact (houtmem v).2 (hmem v (List.mem_append.2 (Or.inl hv)))
  · intro v hval2 hv
    have h := hleft v hval2 (fun hc => hv ((houtmem v).2 hc))
    have := @remCount_congr (validEdges nodes edges)
      (topological_sort σ nodes edges) resF
      (fun x => houtmem x) v
    omega

/-- A recognized node is *trapped* when it belongs to a set of
recognized nodes each of which has a retained in-edge from inside the
set — exactly the nodes that lie on or downstream of a cycle, and
exactly the nodes Kahn's algorithm can never pop. -/
def Trapped (valid : List String) (ve : List RawEdge) (v : String) : Prop :=
  ∃ T : List String, (∀ t ∈ T, t ∈ valid) ∧
    (∀ t ∈ T, ∃ e ∈ ve, e.target = t ∧ e.source ∈ T) ∧ v ∈ T

/-- A list whose every element has all in-edge sources strictly earlier
cannot meet a trapped set. -/
theorem ord_excl (ve : List RawEdge) (T : List String)
    (hT : ∀ t ∈ T, ∃ e ∈ ve, e.target = t ∧ e.source ∈ T) :
    ∀ (out seen : List String),
      (∀ e ∈ ve, ∀ pre suf, out = pre ++ e.target :: suf → e.source ∈ seen ++ pre) →
      (∀ x ∈ seen, x ∉ T) → ∀ v ∈ T, v ∉ out := by
  intro out
  induction out with
  | nil => intro seen _ _ v _; simp
  | cons x rest ih =>
      intro seen hord hseen v hv
      have hxT : x ∉ T := by
        intro hxT
        obtain ⟨e, he, ht, hsT⟩ := hT x hxT
        have := hord e he [] rest (by rw [ht, List.nil_append])
        simp only [List.append_nil] at this
        exact hseen e.source this hsT
      intro hmem
      rcases List.mem_cons.1 hmem with h | h
      · exact hxT (h ▸ hv)
      · have hord2 : ∀ e ∈ ve, ∀ pre suf,
            rest = pre ++ e.target :: suf → e.source ∈ (seen ++ [x]) ++ pre := by
          intro e he pre suf hsplit
          have := hord e he (x :: pre) suf (by rw [hsplit]; rfl)
          simpa using this
        have hseen2 : ∀ y ∈ seen ++ [x], y ∉ T := by
          intro y hy
          rcases List.mem_append.1 hy with h' | h'
          · exact hseen y h'
          · simp only [List.mem_singleton] at h'
            exact h' ▸ hxT
        exact ih (seen ++ [x]) hord2 hseen2 v hv h

/-- Membership characterization of the computed order: exactly the
recognized, non-trapped nodes, independently of the set-iteration
order. -/
theorem topological_sort_mem_char (σ : List String) (nodes : List RawNode)
    (edges : List RawEdge) (hσ : List.Perm σ (validIds nodes)) (v : String) :
    v ∈ topological_sort σ nodes edges ↔
      v ∈ validIds nodes ∧ ¬ Trapped (validIds nodes) (validEdges nodes edges) v := by
  obtain ⟨hnd, hval, hord, hseed, hleft⟩ := topological_sort_props σ nodes edges hσ
  constructor
  · intro hv
    refine ⟨hval v hv, ?_⟩
    rintro ⟨T, hTval, hTclosed, hvT⟩
    have hord2 : ∀ e ∈ validEdges nodes edges, ∀ pre suf,
        topological_sort σ nodes edges = pre ++ e.target :: suf →
          e.source ∈ ([] : List String) ++ pre := by
      intro e he pre suf hsplit
      simpa using hord e he pre suf hsplit
    exact ord_excl (validEdges nodes edges) T hTclosed
      (topological_sort σ nodes edges) [] hord2 (by simp) v hvT hv
  · rintro ⟨hval2, hntrap⟩
    by_contra hout
    apply hntrap
    refine ⟨(validIds nodes).filter
      (fun x => decide (x ∉ topological_sort σ nodes edges)), ?_, ?_, ?_⟩
    · intro t ht
      exact (List.mem_filter.1 ht).1
    · intro t ht
      have htval := (List.mem_filter.1 ht).1
      have htout : t ∉ topological_sort σ nodes edges := by
        have := (List.mem_filter.1 ht).2
        simpa using this
      have h1 := hleft t htval htout
      -- extract a witnessing retained edge with an un-popped source
      have h2 : ∃ e ∈ validEdges nodes edges, e.target = t ∧
          e.source ∉ topological_sort σ nodes edges := by
        by_contra hno
        push_neg at hno
        have h0 : remCount (validEdges nodes edges)
            (topological_sort σ nodes edges) t = 0 := by
          unfold remCount
          have : (validEdges nodes edges).filter (fun e =>
              decide (e.target = t) &&
                decide (e.source ∉ topological_sort σ nodes edges)) = [] := by
            rw [List.filter_eq_nil_iff]
            intro e he
            simp only [Bool.and_eq_true, decide_eq_true_eq, not_and]
            intro ht2
            have := hno e he ht2
            simpa using this
          rw [this]
          rfl
        omega
      obtain ⟨e, he, ht2, hs⟩ := h2
      refine ⟨e, he, ht2, List.mem_filter.2 ⟨((validEdges_mem).1 he).2.1, by simpa using hs⟩⟩
    · exact List.mem_filter.2 ⟨hval2, by simpa using hout⟩

/-! ## Claim theorems about the scheduler -/

/-- Concrete workflow used to exhibit the set-iteration-order dependence
of the scheduler (two recognized nodes, declared `"b"` before `"a"`,
no edges). -/
def C2nodes : List RawNode := [⟨"b", "input"⟩, ⟨"a", "input"⟩]

/-- **C2, counterexample.**  The claim says the work queue is seeded with
the zero-in-degree nodes *in declaration order*.  In the source the seed
order is the iteration order of the Python set `valid_node_ids =
set(node_types.keys())`, which is hash-dependent and unspecified — not
declaration order.  Here `["a", "b"]` is a legal iteration order of the
set `{"b", "a"}` (a permutation of the recognized ids), and under it the
sort returns `["a", "b"]`, not the declaration order `["b", "a"]`: the
returned sequence is therefore not determined by (node list, edges)
alone, contradicting the claim. -/
theorem C2_counterexample :
    List.Perm ["a", "b"] (validIds C2nodes) ∧
      validIds C2nodes = ["b", "a"] ∧
      topological_sort ["a", "b"] C2nodes [] = ["a", "b"] ∧
      topological_sort (validIds C2nodes) C2nodes [] = ["b", "a"] :=
  ⟨by decide, by decide, by decide, by decide⟩

/-- **C2, amended.**  The scheduler seeds its work queue with the
zero-in-degree recognized nodes in the *set-iteration order* of
`valid_node_ids` (which Python does not fix to declaration order), and
the result depends on that order only through the ordering: for any two
iteration orders of the same definition the returned sequences are
permutations of each other (the same set of node ids), and for a fixed
iteration order the function returns the identical sequence. -/
theorem C2_amended_order_set (nodes : List RawNode) (edges : List RawEdge)
    (σ1 σ2 : List String) (h1 : List.Perm σ1 (validIds nodes))
    (h2 : List.Perm σ2 (validIds nodes)) :
    List.Perm (topological_sort σ1 nodes edges) (topological_sort σ2 nodes edges) := by
  have n1 := (topological_sort_props σ1 nodes edges h1).1
  have n2 := (topological_sort_props σ2 nodes edges h2).1
  rw [List.perm_ext_iff_of_nodup n1 n2]
  intro v
  rw [topological_sort_mem_char σ1 nodes edges h1 v,
    topological_sort_mem_char σ2 nodes edges h2 v]

/-- Witness for `C2_amended_order_set` at a concrete instance. -/
theorem C2_amended_order_set_witness :
    List.Perm ["a", "b"] (validIds C2nodes) ∧
      List.Perm (topological_sort ["a", "b"] C2nodes [])
        (topological_sort (validIds C2nodes) C2nodes []) :=
  ⟨by decide, C2_amended_order_set C2nodes [] ["a", "b"] (validIds C2nodes)
    (by decide) (List.Perm.refl _)⟩

/-- **C3.**  For every definition (any set-iteration order of the
recognized-id set) and every edge `(s, t)` whose endpoints are both
recognized, if `t` has an index in the computed `execution_order` then
`s` does too, and the index of `s` is strictly less than the index of
`t`. -/
theorem C3_topological_validity (σ : List String) (nodes : List RawNode)
    (edges : List RawEdge) (hσ : List.Perm σ (validIds nodes)) (e : RawEdge)
    (he : e ∈ edges) (hs : e.source ∈ validIds nodes)
    (ht : e.target ∈ validIds nodes)
    (hmem : e.target ∈ topological_sort σ nodes edges) :
    e.source ∈ topological_sort σ nodes edges ∧
      List.indexOf e.source (topological_sort σ nodes edges) <
        List.indexOf e.target (topological_sort σ nodes edges) := by
  obtain ⟨hnd, _, hord, _, _⟩ := topological_sort_props σ nodes edges hσ
  have he2 : e ∈ validEdges nodes edges := validEdges_mem.2 ⟨he, hs, ht⟩
  obtain ⟨pre, suf, hsplit⟩ := List.append_of_mem hmem
  have hsrc : e.source ∈ pre := hord e he2 pre suf hsplit
  have hnd2 : (pre ++ e.target :: suf).Nodup := hsplit ▸ hnd
  have htpre : e.target ∉ pre := by
    rcases List.nodup_append.1 hnd2 with ⟨_, _, hdisj⟩
    intro hc
    exact hdisj hc (List.mem_cons_self _ _)
  constructor
  · rw [hsplit]
    exact List.mem_append.2 (Or.inl hsrc)
  · rw [hsplit, List.indexOf_append_of_mem hsrc,
      List.indexOf_append_of_not_mem htpre, List.indexOf_cons_self]
    have := List.indexOf_lt_length.2 hsrc
    omega

def C3nodes : List RawNode := [⟨"a", "input"⟩, ⟨"b", "llm"⟩]

def C3edges : List RawEdge := [⟨"a", "b"⟩]

/-- Witness for `C3_topological_validity` at a concrete instance. -/
theorem C3_topological_validity_witness :
    "b" ∈ topological_sort (validIds C3nodes) C3nodes C3edges ∧
      ("a" ∈ topological_sort (validIds C3nodes) C3nodes C3edges ∧
        List.indexOf "a" (topological_sort (validIds C3nodes) C3nodes C3edges) <
          List.indexOf "b" (topological_sort (validIds C3nodes) C3nodes C3edges)) :=
  ⟨by decide, C3_topological_validity (validIds C3nodes) C3nodes C3edges
    (List.Perm.refl _) ⟨"a", "b"⟩ (by decide) (by decide) (by decide) (by decide)⟩

def C8nodes : List RawNode := [⟨"p", "input"⟩, ⟨"q", "llm"⟩, ⟨"r", "output"⟩]

def C8edges : List RawEdge := [⟨"p", "q"⟩, ⟨"q", "p"⟩]

/-- **C8.**  For every input graph — cyclic ones included — the
topological sort is a total function (it terminates; the fuelled loop
provably never exhausts its fuel, mirroring the Python termination
argument) and returns, without error, exactly the recognized nodes that
are not trapped in a cycle: the returned list is duplicate-free and
contains a recognized id `v` iff `v` does not belong to any set of
recognized nodes each having a retained in-edge from inside the set
(the nodes on or downstream of a cycle — the "cyclic remainder" — are
exactly the omitted ones). -/
theorem C8_cycle_tolerance (σ : List String) (nodes : List RawNode)
    (edges : List RawEdge) (hσ : List.Perm σ (validIds nodes)) :
    (topological_sort σ nodes edges).Nodup ∧
      ∀ v, v ∈ topological_sort σ nodes edges ↔
        v ∈ validIds nodes ∧
          ¬ Trapped (validIds nodes) (validEdges nodes edges) v :=
  ⟨(topological_sort_props σ nodes edges hσ).1,
    topological_sort_mem_char σ nodes edges hσ⟩

/-- Witness for `C8_cycle_tolerance`: on the cyclic graph `p ↔ q` with
an isolated `r`, the cyclic pair is silently dropped. -/
theorem C8_cycle_tolerance_witness :
    topological_sort (validIds C8nodes) C8nodes C8edges = ["r"] ∧
      "p" ∉ topological_sort (validIds C8nodes) C8nodes C8edges :=
  ⟨by decide, fun h =>
    (((C8_cycle_tolerance (validIds C8nodes) C8nodes C8edges
        (List.Perm.refl _)).2 "p").1 h).2
      ⟨["p", "q"], by decide, by decide, by decide⟩⟩

/-! ## Execution log service (`log_service.py`)

The service owns the execution table and the per-subscriber queues.  A
subscriber's queue is the list of items its streaming generator will be
handed, in order; `none` is the `None` end-of-stream sentinel of
`_close_subscribers`, and the generator terminates exactly when it
dequeues a `none` (on an empty queue it blocks, emitting heartbeats).
`uuid4()` and `utcnow()` are modelled by one deterministic fresh-string
supply (`tick`); no claim depends on id or timestamp values. -/

inductive LogLevel
  | debug
  | info
  | warning
  | errorL
  | critical
deriving DecidableEq

def LogLevel.value : LogLevel → String
  | .debug => "DEBUG"
  | .info => "INFO"
  | .warning => "WARNING"
  | .errorL => "ERROR"
  | .critical => "CRITICAL"

inductive ExecutionStatus
  | pending
  | running
  | completed
  | failed
  | cancelled
deriving DecidableEq

def ExecutionStatus.value : ExecutionStatus → String
  | .pending => "pending"
  | .running => "running"
  | .completed => "completed"
  | .failed => "failed"
  | .cancelled => "cancelled"

/-- `ExecutionLogEntry` dataclass.  `metadata` values are stringified;
no claim inspects them. -/
structure ExecutionLogEntry where
  id : String
  timestamp : String
  level : LogLevel
  message : String
  workflow_id : String
  execution_id : String
  node_id : Option String := none
  node_type : Option String := none
  step : Option Int := none
  total_steps : Option Int := none
  progress : Option ℚ := none
  metadata : List (String × String) := []
deriving DecidableEq

/-- `WorkflowExecutionContext` dataclass. -/
structure WorkflowExecutionContext where
  workflow_id : String
  execution_id : String
  user_id : Option String := none
  status : ExecutionStatus := .running
  started_at : String := ""
  ended_at : Option String := none
  total_nodes : Int := 0
  completed_nodes : Int := 0
  current_node : Option String := none
  logs : List ExecutionLogEntry := []
  error : Option String := none
deriving DecidableEq

/-- `ExecutionLogService` instance state: `_executions` (insertion-ordered
dict), `_subscribers` (defaultdict id ↦ list of queues), plus the fresh
supply counter standing in for `uuid4()`/`utcnow()`. -/
structure LogServiceState where
  executions : List (String × WorkflowExecutionContext) := []
  subscribers : List (String × List (List (Option ExecutionLogEntry))) := []
  clock : Nat := 0
deriving DecidableEq

/-- Deterministic stand-in for `uuid4()` / `utcnow().isoformat()`. -/
def tick (s : LogServiceState) : String × LogServiceState :=
  ("tick-" ++ toString s.clock, { s with clock := s.clock + 1 })

/-- In-place mutation of the context object stored under `eid`. -/
def updateExec (s : LogServiceState) (eid : String)
    (f : WorkflowExecutionContext → WorkflowExecutionContext) : LogServiceState :=
  { s with executions := s.executions.map (fun p => if p.1 = eid then (p.1, f p.2) else p) }

/-- `self._subscribers.get(execution_id, [])`. -/
def subscriberQueues (s : LogServiceState) (eid : String) :
    List (List (Option ExecutionLogEntry)) :=
  (s.subscribers.lookup eid).getD []

/-- `self._subscribers[execution_id] = qs` (defaultdict: creates the key). -/
def setSubscriberQueues (s : LogServiceState) (eid : String)
    (qs : List (List (Option ExecutionLogEntry))) : LogServiceState :=
  if (s.subscribers.lookup eid).isSome then
    { s with subscribers := s.subscribers.map (fun p => if p.1 = eid then (p.1, qs) else p) }
  else
    { s with subscribers := s.subscribers ++ [(eid, qs)] }

/-- `_notify_subscribers`: put the entry on every queue registered for
the execution (no key is created when none exists). -/
def notifySubscribers (s : LogServiceState) (eid : String)
    (entry : ExecutionLogEntry) : LogServiceState :=
  if (s.subscribers.lookup eid).isSome then
    setSubscriberQueues s eid ((subscriberQueues s eid).map (fun q => q ++ [some entry]))
  else s

/-- `_close_subscribers`: put the `None` sentinel on every registered
queue, then `pop` the key. -/
def closeSubscribers (s : LogServiceState) (eid : String) : LogServiceState :=
  let closed := s.subscribers.map (fun p =>
    if p.1 = eid then (p.1, p.2.map (fun q => q ++ [none])) else p)
  { s with subscribers := closed.filter (fun p => decide (p.1 ≠ eid)) }

/-- `ExecutionLogService.log`.  Raises (`Except.error`) for an unknown
execution id; computes `progress` from the *current* counters; appends
the entry to the execution's log; updates `current_node` only for a
truthy (non-`None`, non-empty) `node_id`; fans out to subscribers. -/
def log (s : LogServiceState) (execution_id : String) (level : LogLevel)
    (message : String) (node_id node_type : Option String)
    (metadata : List (String × String)) :
    Except String (LogServiceState × ExecutionLogEntry) :=
  match s.executions.lookup execution_id with
  | none => .error ("Execution " ++ execution_id ++ " not found")
  | some context =>
      let progress : Option ℚ :=
        if 0 < context.total_nodes then
          some (((context.completed_nodes : ℚ) / (context.total_nodes : ℚ)) * 100)
        else none
      let idts := tick s
      let entry : ExecutionLogEntry :=
        { id := idts.1, timestamp := idts.1, level := level, message := message,
          workflow_id := context.workflow_id, execution_id := execution_id,
          node_id := node_id, node_type := node_type,
          step := some context.completed_nodes,
          total_steps := some context.total_nodes,
          progress := progress, metadata := metadata }
      let s2 := updateExec idts.2 execution_id (fun c =>
        { c with logs := c.logs ++ [entry],
                 current_node :=
                   match node_id with
                   | some nid => if nid = "" then c.current_node else some nid
                   | none => c.current_node })
      .ok (notifySubscribers s2 execution_id entry, entry)

/-- `ExecutionLogService.start_execution`. -/
def start_execution (s : LogServiceState) (workflow_id : String)
    (user_id : Option String) (total_nodes : Int) :
    Except String (String × LogServiceState) :=
  let idts := tick s
  let context : WorkflowExecutionContext :=
    { workflow_id := workflow_id, execution_id := idts.1, user_id := user_id,
      status := .running, started_at := idts.1, total_nodes := total_nodes }
  let s2 := { idts.2 with executions := idts.2.executions ++ [(idts.1, context)] }
  match log s2 idts.1 .info "Workflow execution started" none none
      [("total_nodes", toString total_nodes)] with
  | .error e => .error e
  | .ok r => .ok (idts.1, r.1)

/-- `ExecutionLogService.log_node_start`. -/
def log_node_start (s : LogServiceState) (execution_id node_id node_type : String)
    (node_name : Option String) :
    Except String (LogServiceState × ExecutionLogEntry) :=
  log s execution_id .info ("Starting node: " ++ (node_name.getD node_id))
    (some node_id) (some node_type) [("event", "node_started")]

/-- `ExecutionLogService.log_node_complete`: increments the execution's
`completed_nodes` (when the execution exists) *before* delegating to
`log`, which computes the entry's progress from the updated counter. -/
def log_node_complete (s : LogServiceState) (execution_id node_id node_type : String)
    (duration_ms : ℚ) (output_summary : Option String) :
    Except String (LogServiceState × ExecutionLogEntry) :=
  let s1 :=
    match s.executions.lookup execution_id with
    | some _ => updateExec s execution_id
        (fun c => { c with completed_nodes := c.completed_nodes + 1 })
    | none => s
  log s1 execution_id .info "Node completed successfully" (some node_id)
    (some node_type)
    [("event", "node_completed"), ("duration_ms", toString duration_ms),
     ("output_summary", output_summary.getD "None")]

/-- `ExecutionLogService.log_node_error`. -/
def log_node_error (s : LogServiceState) (execution_id node_id node_type : String)
    (err : String) : Except String (LogServiceState × ExecutionLogEntry) :=
  log s execution_id .errorL ("Node execution failed: " ++ err)
    (some node_id) (some node_type) [("event", "node_error"), ("error", err)]

/-- `ExecutionLogService.complete_execution`: silently returns for an
unknown execution id; otherwise sets the terminal status, appends the
completion log entry and sends the sentinel to every subscriber queue
before dropping them. -/
def complete_execution (s : LogServiceState) (execution_id : String)
    (status : ExecutionStatus) (error : Option String) :
    Except String LogServiceState :=
  match s.executions.lookup execution_id with
  | none => .ok s
  | some _ =>
      let idts := tick s
      let s2 := updateExec idts.2 execution_id (fun c =>
        { c with status := status, ended_at := some idts.1, error := error })
      let level := if status = ExecutionStatus.completed then LogLevel.info else LogLevel.errorL
      let message := "Workflow execution " ++ status.value ++
        (match error with
         | some e => ": " ++ e
         | none => "")
      match log s2 execution_id level message none none
        [("event", "execution_completed"), ("status", status.value)] with
      | .error e => .error e
      | .ok r => .ok (closeSubscribers r.1 execution_id)

/-- `ExecutionLogService.subscribe`: registers a fresh queue and
pre-loads it with the execution's whole backlog; returns the queue's
initial contents (what the generator is guaranteed to be handed without
waiting for future events). -/
def subscribe (s : LogServiceState) (execution_id : String) :
    LogServiceState × List (Option ExecutionLogEntry) :=
  let backlog : List (Option ExecutionLogEntry) :=
    match s.executions.lookup execution_id with
    | some context => context.logs.map some
    | none => []
  (setSubscriberQueues s execution_id
    (subscriberQueues s execution_id ++ [backlog]), backlog)

/-- `ExecutionLogService.get_execution_context`. -/
def get_execution_context (s : LogServiceState) (execution_id : String) :
    Option WorkflowExecutionContext :=
  s.executions.lookup execution_id

/-! ## Claim theorems about the log service -/

theorem lookup_map_update (eid : String)
    (f : WorkflowExecutionContext → WorkflowExecutionContext) :
    ∀ l : List (String × WorkflowExecutionContext),
      (l.map (fun p => if p.1 = eid then (p.1, f p.2) else p)).lookup eid
        = (l.lookup eid).map f := by
  intro l
  induction l with
  | nil => rfl
  | cons p ps ih =>
      obtain ⟨k, v⟩ := p
      simp only [List.map_cons]
      by_cases h : k = eid
      · subst h
        rw [show (if (k, v).1 = k then ((k, v).1, f (k, v).2) else (k, v))
            = (k, f v) from if_pos rfl]
        simp [List.lookup]
      · rw [show (if (k, v).1 = eid then ((k, v).1, f (k, v).2) else (k, v))
            = (k, v) from if_neg h]
        have hbe : (eid == k) = false := beq_eq_false_iff_ne.mpr (fun hc => h hc.symm)
        simp [List.lookup, hbe, ih]

theorem lookup_updateExec (s : LogServiceState) (eid : String)
    (f : WorkflowExecutionContext → WorkflowExecutionContext) :
    (updateExec s eid f).executions.lookup eid = (s.executions.lookup eid).map f :=
  lookup_map_update eid f s.executions

/-- **C7, amended.**  For every known execution, `log_node_complete`
increments `completed_nodes` before the entry's progress is computed
(the entry's `step` already shows the incremented counter), and the
entry's progress equals `completed_nodes / total_nodes * 100` computed
from the incremented counter when `total_nodes > 0`, and is `None`
(null) — not `0` — when `total_nodes` is `0`. -/
theorem C7_progress_increment_first (s : LogServiceState)
    (eid nid ntype : String) (dur : ℚ) (summary : Option String)
    (ctx : WorkflowExecutionContext) (h : s.executions.lookup eid = some ctx) :
    ∃ s2 entry, log_node_complete s eid nid ntype dur summary = Except.ok (s2, entry) ∧
      entry.step = some (ctx.completed_nodes + 1) ∧
      entry.progress = (if 0 < ctx.total_nodes then
        some (((ctx.completed_nodes + 1 : Int) : ℚ) / (ctx.total_nodes : ℚ) * 100)
      else none) := by
  have hstep : log_node_complete s eid nid ntype dur summary
      = log (updateExec s eid fun c => { c with completed_nodes := c.completed_nodes + 1 })
          eid .info "Node completed successfully" (some nid) (some ntype)
          [("event", "node_completed"), ("duration_ms", toString dur),
           ("output_summary", summary.getD "None")] := by
    unfold log_node_complete
    rw [h]
  have h2 : (updateExec s eid fun c =>
        { c with completed_nodes := c.completed_nodes + 1 }).executions.lookup eid
      = some { ctx with completed_nodes := ctx.completed_nodes + 1 } := by
    rw [lookup_updateExec, h]
    rfl
  rw [hstep]
  unfold log
  rw [h2]
  exact ⟨_, _, rfl, rfl, rfl⟩

def C7ctx0 : WorkflowExecutionContext :=
  { workflow_id := "wf", execution_id := "e1", status := .running, total_nodes := 0 }

def C7state0 : LogServiceState := { executions := [("e1", C7ctx0)], clock := 1 }

/-- **C7, counterexample.**  On an execution whose `total_nodes` is `0`
(an empty workflow produces exactly this), the entry logged by
`log_node_complete` carries `progress = None` (serialized `null`), not
`0` as the claim states: `log` only assigns a progress value when
`total_nodes > 0` and otherwise leaves the `None` default. -/
theorem C7_progress_zero_total_counterexample :
    (log_node_complete C7state0 "e1" "n1" "llm" 5 none).map (fun p => p.2.progress)
        = Except.ok none ∧
      (log_node_complete C7state0 "e1" "n1" "llm" 5 none).map (fun p => p.2.progress)
        ≠ Except.ok (some 0) := by
  refine ⟨rfl, fun hc => ?_⟩
  rw [show (log_node_complete C7state0 "e1" "n1" "llm" 5 none).map (fun p => p.2.progress)
      = Except.ok none from rfl] at hc
  exact absurd (Except.ok.inj hc) (by simp)

def C7ctx2 : WorkflowExecutionContext :=
  { workflow_id := "wf", execution_id := "e2", status := .running, total_nodes := 2 }

def C7state2 : LogServiceState := { executions := [("e2", C7ctx2)], clock := 1 }

/-- Witness for `C7_progress_increment_first` at a concrete instance. -/
theorem C7_progress_increment_first_witness :
    C7state2.executions.lookup "e2" = some C7ctx2 ∧
      ∃ s2 entry, log_node_complete C7state2 "e2" "n1" "llm" 5 none = Except.ok (s2, entry) ∧
        entry.step = some (C7ctx2.completed_nodes + 1) ∧
        entry.progress = (if 0 < C7ctx2.total_nodes then
          some (((C7ctx2.completed_nodes + 1 : Int) : ℚ) / (C7ctx2.total_nodes : ℚ) * 100)
        else none) :=
  ⟨rfl, C7_progress_increment_first C7state2 "e2" "n1" "llm" 5 none C7ctx2 rfl⟩

/-- **C10.**  Calling `complete_execution` with an execution id that is
not in the execution table returns without raising and without touching
the state (no execution record or subscriber queue changes), while
`log` with the same unknown id raises the "execution not found"
error. -/
theorem C10_complete_unknown_noop (s : LogServiceState) (eid : String)
    (status : ExecutionStatus) (err : Option String)
    (h : s.executions.lookup eid = none) :
    complete_execution s eid status err = Except.ok s ∧
      ∀ level message nid ntype md,
        log s eid level message nid ntype md =
          Except.error ("Execution " ++ eid ++ " not found") := by
  constructor
  · unfold complete_execution
    rw [h]
  · intro level message nid ntype md
    unfold log
    rw [h]

/-- Witness for `C10_complete_unknown_noop` at a concrete instance. -/
theorem C10_complete_unknown_noop_witness :
    complete_execution ({} : LogServiceState) "ghost" .completed none
        = Except.ok ({} : LogServiceState) ∧
      log ({} : LogServiceState) "ghost" .info "msg" none none [] =
        Except.error ("Execution " ++ "ghost" ++ " not found") :=
  ⟨(C10_complete_unknown_noop {} "ghost" .completed none rfl).1,
    (C10_complete_unknown_noop {} "ghost" .completed none rfl).2 .info "msg" none none []⟩

/-- The full lifecycle of claim C4's scenario: start an execution with
one node, log the node's start and completion, complete the execution
(this is the moment the sentinel is fanned out and the subscriber key
is dropped) — and only then subscribe. -/
def C4run : Except String (String × LogServiceState) := do
  let r1 ← start_execution {} "wf1" none 1
  let r2 ← log_node_start r1.2 r1.1 "n1" "llm" (some "Node 1")
  let r3 ← log_node_complete r2.1 r1.1 "n1" "llm" 5 none
  let s4 ← complete_execution r3.1 r1.1 .completed none
  return (r1.1, s4)

/-- **C4** (the code contradicts the claim).  After the execution is
terminal, a late subscriber's queue is pre-loaded with the full
4-entry backlog (start, node start, node complete, completion) — that
part of the claim holds — but the queue holds no `None` sentinel
(`all Option.isSome`), the subscriber table is empty after completion
(`subscribers.length = 0`), and `subscribe`'s initial load consists
only of `some`-wrapped backlog entries for *every* state, so no
completion signal is ever delivered to a late queue: the generator
never terminates (it blocks and emits heartbeats), instead of ending
the stream right after the backlog. -/
theorem C4_late_subscriber_stream_never_ends :
    ((C4run.map fun p => (((p.2.executions.lookup p.1).map (fun c => c.status)),
        (subscribe p.2 p.1).2.length,
        (subscribe p.2 p.1).2.all Option.isSome,
        p.2.subscribers.length))
      = Except.ok (some .completed, 4, true, 0)) ∧
      ∀ (s : LogServiceState) (eid : String),
        ((subscribe s eid).2.all Option.isSome) = true := by
  constructor
  · rfl
  · intro s eid
    show (match s.executions.lookup eid with
      | some context => context.logs.map some
      | none => []).all Option.isSome = true
    cases s.executions.lookup eid with
    | none => rfl
    | some c =>
        simp [List.all_map, Function.comp, Option.isSome]

/-! ## Knowledge-base retrieval component (`components/knowledge_base.py`)

Search scores are binary floats in Python; they are modelled as
rationals (every comparison in the component is order-only, and no
claim depends on float rounding).  Result dicts are modelled as
structures whose field defaults are exactly the `dict.get` defaults the
component uses, so a missing key and the default value coincide. -/

/-- One element of the similarity-search result list:
`{"text": ..., "score": ..., "metadata": {...}}` with the component's
access defaults baked in (`r.get("text", "")`, `r.get("score", 0)`,
`metadata.get("filename", ...)`, `metadata.get("chunk_index", 0)`). -/
structure SearchResult where
  text : String := ""
  score : ℚ := 0
  filename : Option String := none
  chunk_index : Int := 0
deriving DecidableEq

structure SourceInfo where
  index : Nat
  score : ℚ
  filename : String
  chunk_index : Int
deriving DecidableEq

/-- The shared mutable `ComponentContext` dict: an `Option` field is
`none` when the key is absent. -/
structure ComponentContext where
  query : Option String := none
  context : Option String := none
  answer : Option String := none
  output : Option String := none
  sources : Option (List SourceInfo) := none
  scores : Option (List ℚ) := none
deriving DecidableEq

/-- The payload dict as the knowledge-base component reads it. -/
structure KBPayload where
  query : Option String := none
  top_k : Option Int := none
  topK : Option Int := none
  threshold : Option ℚ := none
deriving DecidableEq

/-- The component's result dict; `Option` fields are keys only present
on some branches. -/
structure KBResult where
  context : String := ""
  chunks : Nat := 0
  skipped : Option String := none
  message : Option String := none
  error : Option String := none
  scores : Option (List ℚ) := none
  sources : Option (List SourceInfo) := none
deriving DecidableEq

/-- Stand-in for the f-string float format `{score:.0%}` in the
document header; only the header's non-emptiness matters to any claim,
so rational rounding replaces binary-float rounding. -/
def formatPercent (q : ℚ) : String := toString (round (q * 100)) ++ "%"

/-- The per-chunk header + text:
`f"[Document {i+1} (relevance: {score:.0%})]\n{text}"`. -/
def docBlock (i : Nat) (r : SearchResult) : String :=
  "[Document " ++ toString (i + 1) ++ " (relevance: " ++ formatPercent r.score
    ++ ")]\n" ++ r.text

/-- The `for i, result in enumerate(filtered_results)` loop: collect
`(retrieved_texts, sources, scores)`, skipping results with empty
text (`if text:`). -/
def kbCollect : Nat → List SearchResult → List String × List SourceInfo × List ℚ
  | _, [] => ([], [], [])
  | i, r :: rs =>
      let rest := kbCollect (i + 1) rs
      if r.text ≠ "" then
        (docBlock i r :: rest.1,
         ({ index := i + 1, score := r.score, filename := r.filename.getD "unknown",
            chunk_index := r.chunk_index } : SourceInfo) :: rest.2.1,
         r.score :: rest.2.2)
      else rest

/-- Python `"sep".join(blocks)`. -/
def pyJoin (sep : String) : List String → String
  | [] => ""
  | [x] => x
  | x :: y :: ys => x ++ sep ++ pyJoin sep (y :: ys)

/-- Python list slice `l[:k]` (a negative bound counts from the end). -/
def pySliceTo (k : Int) (l : List SearchResult) : List SearchResult :=
  if 0 ≤ k then l.take k.toNat else l.take (l.length - (-k).toNat)

/-- `filtered_results = [r for r in results if r.get("score", 0) >= threshold]`. -/
def kbFiltered (threshold : ℚ) (results : List SearchResult) : List SearchResult :=
  results.filter (fun r => decide (threshold ≤ r.score))

/-- The results the component actually renders: the threshold survivors,
or — when none survive but raw results exist — the best-available raw
results up to `top_k` (`filtered_results = results[:min(top_k,
len(results))]`). -/
def kbSelected (top_k : Int) (threshold : ℚ) (results : List SearchResult) :
    List SearchResult :=
  if kbFiltered threshold results = [] then
    pySliceTo (min top_k (results.length : Int)) results
  else kbFiltered threshold results

/-- `KnowledgeBaseComponent.run`.  `embed` and `search` are the
embedding and vector-store capabilities; a Python exception from either
is an `Except.error`, and the component's `try/except` catches it — the
function itself is total and never raises to its caller.  (The source's
inner `else: return ... No results above threshold` branch is
unreachable: it is guarded by `if not filtered_results:` *after* the
`if not results: return` check, so `results` is always truthy there;
the fallback assignment is therefore unconditional in this model.) -/
def knowledge_base_run (embed : String → Except String (List ℚ))
    (search : List ℚ → Int → Except String (List SearchResult))
    (payload : KBPayload) (context : ComponentContext) :
    KBResult × ComponentContext :=
  let query := context.query.getD (payload.query.getD "")
  if query = "" then
    ({ context := "", chunks := 0 }, { context with context := some "" })
  else
    let top_k := payload.top_k.getD (payload.topK.getD 3)
    let threshold := payload.threshold.getD (mkRat 7 10)
    match embed query with
    | .error e =>
        ({ context := "", chunks := 0, error := some e },
         { context with context := some "" })
    | .ok query_embedding =>
        match search query_embedding top_k with
        | .error e =>
            ({ context := "", chunks := 0, error := some e },
             { context with context := some "" })
        | .ok results =>
            if results = [] then
              ({ context := "", chunks := 0 }, { context with context := some "" })
            else
              let c := kbCollect 0 (kbSelected top_k threshold results)
              let combined := pyJoin "\n\n---\n\n" c.1
              ({ context := combined, chunks := c.1.length,
                 scores := some c.2.2, sources := some c.2.1 },
               { context with
                  context := some combined
                  sources := some c.2.1
                  scores := some c.2.2 })

/-! ## Claim theorems about the retrieval component -/

theorem string_eq_empty_of_length_zero {s : String} (h : s.length = 0) : s = "" := by
  cases s with
  | mk data =>
      cases data with
      | nil => rfl
      | cons c cs => simp [String.length] at h

theorem pyJoin_ne_empty (sep x : String) (xs : List String) (hx : x ≠ "") :
    pyJoin sep (x :: xs) ≠ "" := by
  cases xs with
  | nil => simpa [pyJoin] using hx
  | cons y ys =>
      rw [pyJoin]
      intro hc
      apply hx
      have hlen := congrArg String.length hc
      rw [String.length_append, String.length_append] at hlen
      have h0 : ("" : String).length = 0 := rfl
      rw [h0] at hlen
      have hx0 : x.length = 0 := by omega
      exact string_eq_empty_of_length_zero hx0

theorem docBlock_ne_empty (i : Nat) (r : SearchResult) : docBlock i r ≠ "" := by
  intro hc
  have hlen := congrArg String.length hc
  unfold docBlock at hlen
  rw [String.length_append, String.length_append, String.length_append,
    String.length_append, String.length_append] at hlen
  have h10 : ("[Document " : String).length = 10 := rfl
  have h0 : ("" : String).length = 0 := rfl
  omega

theorem kbCollect_head (sel : List SearchResult)
    (h : ∃ r ∈ sel, r.text ≠ "") :
    ∀ i, ∃ j r t, (kbCollect i sel).1 = docBlock j r :: t := by
  induction sel with
  | nil => obtain ⟨r, hr, _⟩ := h; exact absurd hr (by simp)
  | cons r rs ih =>
      intro i
      by_cases hr : r.text ≠ ""
      · rw [kbCollect, if_pos hr]
        exact ⟨i, r, _, rfl⟩
      · rw [kbCollect, if_neg hr]
        apply ih
        obtain ⟨r2, hmem, ht⟩ := h
        rcases List.mem_cons.1 hmem with h1 | h1
        · exact absurd (h1 ▸ ht) hr
        · exact ⟨r2, h1, ht⟩

/-- **C6, amended.**  In a run of the Retrieval component that reaches
similarity search and obtains a non-empty raw result list, the rendered
set is the threshold survivors or — if none survive — the raw fallback
up to `topK` (`kbSelected`); whenever the rendered set contains at
least one result with non-empty text, `context.context` ends up
non-empty with at least one chunk counted.  (The original claim fails
only for results whose stored text is empty, which the rendering loop
skips via `if text:`.) -/
theorem C6_retrieval_fallback (embed : String → Except String (List ℚ))
    (search : List ℚ → Int → Except String (List SearchResult))
    (payload : KBPayload) (context : ComponentContext)
    (emb : List ℚ) (results : List SearchResult)
    (hq : context.query.getD (payload.query.getD "") ≠ "")
    (hemb : embed (context.query.getD (payload.query.getD "")) = Except.ok emb)
    (hsearch : search emb (payload.top_k.getD (payload.topK.getD 3)) = Except.ok results)
    (hne : results ≠ [])
    (htext : ∃ r ∈ kbSelected (payload.top_k.getD (payload.topK.getD 3))
        (payload.threshold.getD (mkRat 7 10)) results, r.text ≠ "") :
    ∃ s, (knowledge_base_run embed search payload context).2.context = some s ∧ s ≠ "" ∧
      1 ≤ (knowledge_base_run embed search payload context).1.chunks := by
  obtain ⟨j, r, t, hc⟩ := kbCollect_head _ htext 0
  simp only [knowledge_base_run]
  rw [if_neg hq]
  simp only [hemb, hsearch, if_neg hne]
  refine ⟨_, rfl, ?_, ?_⟩
  · rw [hc]
    exact pyJoin_ne_empty _ _ _ (docBlock_ne_empty j r)
  · rw [hc]
    simp

def C6result : SearchResult := { text := "", score := mkRat 9 10 }

/-- **C6, counterexample.**  Retrieval is enabled, documents exist, and
similarity search returns one result — whose score `0.9` even clears
the `0.7` threshold — yet `context.context` ends up as the *empty*
string and the chunk count is `0`, because the stored text is empty and
the rendering loop skips empty texts (`if text:`).  This contradicts
the claim that `context.context` is non-empty whenever search returns
at least one result. -/
theorem C6_empty_text_counterexample :
    (knowledge_base_run (fun _ => Except.ok [1]) (fun _ _ => Except.ok [C6result])
        { query := some "q" } {}).2.context = some "" ∧
      (knowledge_base_run (fun _ => Except.ok [1]) (fun _ _ => Except.ok [C6result])
        { query := some "q" } {}).1.chunks = 0 :=
  ⟨rfl, rfl⟩

def C6doc : SearchResult := { text := "the grass is green", score := mkRat 1 2 }

/-- Witness for `C6_retrieval_fallback`: one stored chunk whose score
`0.5` is below the `0.7` threshold still yields a non-empty context via
the best-available fallback. -/
theorem C6_retrieval_fallback_witness :
    (({} : ComponentContext).query.getD
        (({ query := some "q" } : KBPayload).query.getD "") ≠ "") ∧
      ∃ s, (knowledge_base_run (fun _ => Except.ok [1]) (fun _ _ => Except.ok [C6doc])
          { query := some "q" } {}).2.context = some s ∧ s ≠ "" ∧
        1 ≤ (knowledge_base_run (fun _ => Except.ok [1]) (fun _ _ => Except.ok [C6doc])
          { query := some "q" } {}).1.chunks :=
  ⟨by decide, C6_retrieval_fallback (fun _ => Except.ok [1]) (fun _ _ => Except.ok [C6doc])
    { query := some "q" } {} [1] [C6doc] (by decide) rfl rfl (by decide) (by decide)⟩

/-- **C9.**  The Retrieval component never raises to its caller: its
embedding in Lean is a *total* function into plain results, and when
the embedding or similarity-search capability raises (either
`Except.error` case), the component catches it, sets `context.context`
to the empty string, and returns a result with chunk count `0` carrying
the error text — so a retrieval failure alone never aborts the node or
marks the execution failed. -/
theorem C9_retrieval_failure_isolated (embed : String → Except String (List ℚ))
    (search : List ℚ → Int → Except String (List SearchResult))
    (payload : KBPayload) (context : ComponentContext) (e : String)
    (hq : context.query.getD (payload.query.getD "") ≠ "")
    (hfail : embed (context.query.getD (payload.query.getD "")) = Except.error e ∨
      (∃ emb, embed (context.query.getD (payload.query.getD "")) = Except.ok emb ∧
        search emb (payload.top_k.getD (payload.topK.getD 3)) = Except.error e)) :
    knowledge_base_run embed search payload context =
      ({ context := "", chunks := 0, error := some e },
       { context with context := some "" }) := by
  simp only [knowledge_base_run]
  rw [if_neg hq]
  rcases hfail with h | ⟨emb, hok, hs⟩
  · simp only [h]
  · simp only [hok, hs]

/-- Witness for `C9_retrieval_failure_isolated` at a concrete instance
(the embedding capability raises). -/
theorem C9_retrieval_failure_isolated_witness :
    (({} : ComponentContext).query.getD
        (({ query := some "q" } : KBPayload).query.getD "") ≠ "") ∧
      knowledge_base_run (fun _ => Except.error "embedding backend down")
          (fun _ _ => Except.ok []) { query := some "q" } {} =
        ({ context := "", chunks := 0, error := some "embedding backend down" },
         { ({} : ComponentContext) with context := some "" }) :=
  ⟨by decide, C9_retrieval_failure_isolated (fun _ => Except.error "embedding backend down")
    (fun _ _ => Except.ok []) { query := some "q" } {} "embedding backend down"
    (by decide) (Or.inl rfl)⟩

/-! ## LLM generation service with provider fallback (`llm_service.py`)

The OpenAI and Gemini SDK calls are capability parameters of type
`Prompt → String → ℚ → Int → Except String String` (prompt, model,
temperature, max_tokens); a raised SDK exception is `Except.error`.
Temperatures are rationals (never compared); configuration flags stand
for `self.openai_client is not None` / `self.gemini_configured`. -/

inductive LLMProvider
  | openai
  | gemini
deriving DecidableEq

/-- How a member of the `(str, Enum)` `LLMProvider` renders inside the
f-strings of `llm_service.py` (Python ≥ 3.11 qualified-name rendering;
no claim depends on this rendering, only on which *error texts* the
aggregate message carries). -/
def LLMProvider.fstr : LLMProvider → String
  | .openai => "LLMProvider.OPENAI"
  | .gemini => "LLMProvider.GEMINI"

/-- The other provider (`_fallback_generate`'s choice). -/
def LLMProvider.other : LLMProvider → LLMProvider
  | .openai => .gemini
  | .gemini => .openai

/-- `LLMModel` values with `MODEL_PROVIDER_MAP`. -/
def LLM_MODELS : List (String × LLMProvider) :=
  [("gpt-4o-mini", .openai), ("gpt-4o", .openai), ("gpt-4", .openai),
   ("gpt-4-turbo", .openai), ("gpt-3.5-turbo", .openai),
   ("gemini-pro", .gemini), ("gemini-1.5-pro", .gemini),
   ("gemini-1.5-flash", .gemini)]

/-- Python substring test `pat in s` on character lists. -/
def charsContains (pat : List Char) : List Char → Bool
  | [] => pat.isEmpty
  | c :: rest => pat.isPrefixOf (c :: rest) || charsContains pat rest

/-- Python `pat in s` for strings. -/
def strContains (s pat : String) : Bool :=
  charsContains pat.toList s.toList

structure Prompt where
  system : String
  user : String
deriving DecidableEq

def defaultSystemPrompt : String :=
  "You are a helpful AI assistant. Answer questions accurately and concisely. "
    ++ "If context is provided, use it to inform your answer. "
    ++ "If you don't know the answer, say so honestly."

/-- `LLMService._build_prompt` (Python truthiness: `None` and `""` both
fall back to the default / skip the context block). -/
def _build_prompt (query : String) (context : Option String)
    (system_prompt : Option String) : Prompt :=
  let sp :=
    match system_prompt with
    | some s => if s = "" then defaultSystemPrompt else s
    | none => defaultSystemPrompt
  let ctxPart :=
    match context with
    | some c => if c = "" then "" else "### Context:\n" ++ c ++ "\n\n"
    | none => ""
  { system := sp, user := ctxPart ++ "### Question:\n" ++ query }

/-- Python `str.lower()` (kernel-computable character map). -/
def pyLower (s : String) : String := String.mk (s.toList.map Char.toLower)

/-- `model or default` (Python `or`: `None` and `""` give the default). -/
def modelOr (model : Option String) (d : String) : String :=
  match model with
  | some m => if m = "" then d else m
  | none => d

/-- The final default of `_resolve_provider_model` when neither an
explicit model nor a provider decided. -/
def defaultResolve (openai_configured gemini_configured : Bool) :
    Except String (LLMProvider × String) :=
  if openai_configured then .ok (.openai, "gpt-4o-mini")
  else if gemini_configured then .ok (.gemini, "gemini-1.5-flash")
  else .error "No LLM provider configured. Set OPENAI_API_KEY or GEMINI_API_KEY."

/-- The `if provider:` stage of `_resolve_provider_model` (note: the
returned model is the *original-case* `model or default`). -/
def resolveFromProvider (openai_configured gemini_configured : Bool)
    (provider model : Option String) : Except String (LLMProvider × String) :=
  match provider with
  | some p =>
      if p = "" then defaultResolve openai_configured gemini_configured
      else if pyLower p = "gemini" then .ok (.gemini, modelOr model "gemini-1.5-flash")
      else .ok (.openai, modelOr model "gpt-4o-mini")
  | none => defaultResolve openai_configured gemini_configured

/-- `LLMService._resolve_provider_model`: an explicit (truthy) model is
matched against the known model list, then name-sniffed ("gpt"/"openai"
vs "gemini"); otherwise the explicit provider, then the configured
default, decides.  Raises when nothing is configured. -/
def _resolve_provider_model (openai_configured gemini_configured : Bool)
    (provider model : Option String) : Except String (LLMProvider × String) :=
  match model with
  | some m =>
      if m = "" then resolveFromProvider openai_configured gemini_configured provider model
      else
        let ml := pyLower m
        match LLM_MODELS.lookup ml with
        | some p => .ok (p, ml)
        | none =>
            if strContains ml "gpt" || strContains ml "openai" then .ok (.openai, ml)
            else if strContains ml "gemini" then .ok (.gemini, ml)
            else resolveFromProvider openai_configured gemini_configured provider model
  | none => resolveFromProvider openai_configured gemini_configured provider model

/-- `LLMService._generate_openai`: configuration check, SDK call,
`result or "No response generated."`. -/
def _generate_openai (openai_configured : Bool)
    (openaiCap : Prompt → String → ℚ → Int → Except String String)
    (prompt : Prompt) (model : String) (temperature : ℚ) (max_tokens : Int) :
    Except String String :=
  if openai_configured then
    match openaiCap prompt model temperature max_tokens with
    | .error e => .error e
    | .ok r => .ok (if r = "" then "No response generated." else r)
  else .error "OpenAI client not configured. Set OPENAI_API_KEY in environment."

/-- `LLMService._generate_gemini`. -/
def _generate_gemini (gemini_configured : Bool)
    (geminiCap : Prompt → String → ℚ → Int → Except String String)
    (prompt : Prompt) (model : String) (temperature : ℚ) (max_tokens : Int) :
    Except String String :=
  if gemini_configured then
    match geminiCap prompt model temperature max_tokens with
    | .error e => .error e
    | .ok r => .ok (if r = "" then "No response generated." else r)
  else .error "Gemini client not configured. Set GEMINI_API_KEY in environment."

/-- `LLMService._fallback_generate`: try the other provider with its
hard-coded default model; any failure inside (including the
not-configured raise) is wrapped into the aggregate message, which
names both *providers* but carries only the fallback attempt's error
text. -/
def _fallback_generate (openai_configured gemini_configured : Bool)
    (openaiCap geminiCap : Prompt → String → ℚ → Int → Except String String)
    (prompt : Prompt) (failed_provider : LLMProvider)
    (temperature : ℚ) (max_tokens : Int) : Except String String :=
  let fallback_provider := failed_provider.other
  let attempt : Except String String :=
    if fallback_provider = LLMProvider.openai ∧ openai_configured then
      _generate_openai openai_configured openaiCap prompt "gpt-4o-mini" temperature max_tokens
    else if fallback_provider = LLMProvider.gemini ∧ gemini_configured then
      _generate_gemini gemini_configured geminiCap prompt "gemini-1.5-flash" temperature max_tokens
    else .error ("Fallback provider " ++ fallback_provider.fstr ++ " not configured")
  match attempt with
  | .ok r => .ok r
  | .error e =>
      .error ("Both LLM providers failed. Primary: " ++ failed_provider.fstr
        ++ ", Fallback: " ++ fallback_provider.fstr ++ ". Error: " ++ e)

/-- `LLMService.generate`: build the prompt, resolve provider/model,
try the primary provider, fall back to the other provider on failure
when `enable_fallback` is set. -/
def generate (openai_configured gemini_configured : Bool)
    (openaiCap geminiCap : Prompt → String → ℚ → Int → Except String String)
    (query : String) (context : Option String) (prompt : Option String)
    (provider model : Option String) (temperature : ℚ) (max_tokens : Int)
    (enable_fallback : Bool) : Except String String :=
  let full_prompt := _build_prompt query context prompt
  match _resolve_provider_model openai_configured gemini_configured provider model with
  | .error e => .error e
  | .ok pm =>
      let attempt :=
        match pm.1 with
        | .openai => _generate_openai openai_configured openaiCap full_prompt pm.2
            temperature max_tokens
        | .gemini => _generate_gemini gemini_configured geminiCap full_prompt pm.2
            temperature max_tokens
      match attempt with
      | .ok r => .ok r
      | .error e1 =>
          if enable_fallback then
            _fallback_generate openai_configured gemini_configured openaiCap geminiCap
              full_prompt pm.1 temperature max_tokens
          else .error e1

/-! ## Claim theorems about the fallback -/

/-- **C5, amended.**  When the resolved primary provider's call fails
and the subsequent fallback attempt against the other provider also
fails, `generate` raises an error only after both providers were tried,
and the aggregate message names both *providers* and the *fallback*
attempt's failure reason — the primary provider's failure reason is
only logged, not included in the raised message. -/
theorem C5_fallback_exhaustion_message (e1 e2 : String)
    (openaiCap geminiCap : Prompt → String → ℚ → Int → Except String String)
    (query : String) (context prompt provider model : Option String)
    (temperature : ℚ) (max_tokens : Int) (p : LLMProvider) (m : String)
    (hres : _resolve_provider_model true true provider model = Except.ok (p, m))
    (hfail1 : ∀ pr mo t mt,
      (match p with | .openai => openaiCap | .gemini => geminiCap) pr mo t mt
        = Except.error e1)
    (hfail2 : ∀ pr mo t mt,
      (match p with | .openai => geminiCap | .gemini => openaiCap) pr mo t mt
        = Except.error e2) :
    generate true true openaiCap geminiCap query context prompt provider model
        temperature max_tokens true
      = Except.error ("Both LLM providers failed. Primary: " ++ p.fstr
          ++ ", Fallback: " ++ p.other.fstr ++ ". Error: " ++ e2) := by
  simp only [generate]
  rw [hres]
  cases p with
  | openai =>
      have h1 : ∀ pr mo t mt, openaiCap pr mo t mt = Except.error e1 := hfail1
      have h2 : ∀ pr mo t mt, geminiCap pr mo t mt = Except.error e2 := hfail2
      simp only [_generate_openai, _generate_gemini, _fallback_generate,
        LLMProvider.other, LLMProvider.fstr, h1, h2]
      simp
  | gemini =>
      have h1 : ∀ pr mo t mt, geminiCap pr mo t mt = Except.error e1 := hfail1
      have h2 : ∀ pr mo t mt, openaiCap pr mo t mt = Except.error e2 := hfail2
      simp only [_generate_openai, _generate_gemini, _fallback_generate,
        LLMProvider.other, LLMProvider.fstr, h1, h2]
      simp

/-- Witness for `C5_fallback_exhaustion_message` at a concrete
instance: explicit provider `"openai"`, both capabilities failing. -/
theorem C5_fallback_exhaustion_message_witness :
    _resolve_provider_model true true (some "openai") none
        = Except.ok (LLMProvider.openai, "gpt-4o-mini") ∧
      generate true true (fun _ _ _ _ => Except.error "rate limited")
          (fun _ _ _ _ => Except.error "quota exceeded")
          "q" none none (some "openai") none 1 1024 true
        = Except.error ("Both LLM providers failed. Primary: LLMProvider.OPENAI"
            ++ ", Fallback: LLMProvider.GEMINI. Error: quota exceeded") :=
  ⟨rfl, C5_fallback_exhaustion_message "rate limited" "quota exceeded"
    (fun _ _ _ _ => Except.error "rate limited")
    (fun _ _ _ _ => Except.error "quota exceeded")
    "q" none none (some "openai") none 1 1024 LLMProvider.openai "gpt-4o-mini"
    rfl (fun _ _ _ _ => rfl) (fun _ _ _ _ => rfl)⟩

/-- **C5, counterexample.**  Both providers fail — the primary with
`PRIMARYBOOM`, the fallback with `FALLBACKBOOM` — and the raised
message is exactly the aggregate naming both providers with *only* the
fallback's reason: the primary's failure reason `PRIMARYBOOM` does not
occur in the message, contradicting the claim that the message names
both underlying failure reasons. -/
theorem C5_primary_reason_missing_counterexample :
    generate true true (fun _ _ _ _ => Except.error "PRIMARYBOOM")
        (fun _ _ _ _ => Except.error "FALLBACKBOOM")
        "q" none none (some "openai") none 1 1024 true
      = Except.error ("Both LLM providers failed. Primary: LLMProvider.OPENAI, "
          ++ "Fallback: LLMProvider.GEMINI. Error: FALLBACKBOOM") ∧
      strContains ("Both LLM providers failed. Primary: LLMProvider.OPENAI, "
          ++ "Fallback: LLMProvider.GEMINI. Error: FALLBACKBOOM") "PRIMARYBOOM" = false ∧
      strContains ("Both LLM providers failed. Primary: LLMProvider.OPENAI, "
          ++ "Fallback: LLMProvider.GEMINI. Error: FALLBACKBOOM") "FALLBACKBOOM" = true :=
  ⟨rfl, by decide, by decide⟩

/-! ## LLM engine component (`components/llm_engine.py`) -/

/-- Python `s[:n]` (kernel-computable). -/
def pyTake (n : Nat) (s : String) : String := String.mk (s.toList.take n)

/-- `f"{s[:100]}{'...' if len(s) > 100 else ''}"`. -/
def truncatePreview (s : String) : String :=
  if s.length > 100 then pyTake 100 s ++ "..." else pyTake 100 s

/-- The payload dict as the LLM engine component reads it (the executor
sets `query`/`context`/`provider`/`model`/`systemPrompt`/`temperature`/
`maxTokens`; `prompt`/`web_search`/`max_tokens` flow through from the
caller's payload via `**payload`). -/
structure LLMEnginePayload where
  query : Option String := none
  context : String := ""
  provider : Option String := none
  model : Option String := none
  systemPrompt : Option String := none
  temperature : Option ℚ := none
  maxTokens : Option Int := none
  prompt : Option String := none
  web_search : Bool := false
  max_tokens : Option Int := none
deriving DecidableEq

/-- The LLM engine component's result dict. -/
structure LLMResult where
  answer : String := ""
  error : Bool := false
  provider : Option String := none
  model : Option String := none
  has_context : Bool := false
  web_search_used : Bool := false
deriving DecidableEq

/-- `LLMEngineComponent.run`.  `llmGen` is `self.llm.generate` (the
whole service call with fallback; its argument order is query, context,
prompt, provider, model, temperature, max_tokens, enable_fallback) and
`searchCap` is the optional web-search service.  A generation failure
is caught: the component writes the user-visible error string into
`context.answer` and returns an `error := true` result — it never
raises.  Web-search failures are swallowed (generation proceeds without
web context); note that the component reads `prompt` from the original
payload key `"prompt"`, not from the `systemPrompt` key the executor
sets. -/
def llm_engine_run
    (llmGen : String → Option String → Option String → Option String → Option String →
      ℚ → Int → Bool → Except String String)
    (searchCap : Option (String → Except String String))
    (payload : LLMEnginePayload) (context : ComponentContext) :
    LLMResult × ComponentContext :=
  let query := context.query.getD (payload.query.getD "")
  if query = "" then
    ({ answer := "No query provided.", error := true }, context)
  else
    let temperature := payload.temperature.getD (mkRat 7 10)
    let max_tokens := payload.max_tokens.getD 1024
    let kb0 := context.context.getD ""
    let kb_context :=
      match searchCap with
      | some sc =>
          if payload.web_search then
            match sc query with
            | .ok sr =>
                if sr ≠ "" then
                  (if kb0 ≠ "" then kb0 ++ "\n\n### Web Search Results:\n" ++ sr
                   else "\n\n### Web Search Results:\n" ++ sr)
                else kb0
            | .error _ => kb0
          else kb0
      | none => kb0
    match llmGen query (if kb_context ≠ "" then some kb_context else none)
        payload.prompt payload.provider payload.model temperature max_tokens true with
    | .ok answer =>
        ({ answer := answer, provider := payload.provider, model := payload.model,
           has_context := kb_context ≠ "", web_search_used := payload.web_search },
         { context with answer := some answer })
    | .error e =>
        ({ answer := "Failed to generate response: " ++ e, error := true },
         { context with answer := some ("Failed to generate response: " ++ e) })

/-! ## Workflow executor (`workflow_executor.py`) -/

/-- The free-form `data` bag of a raw node, restricted to the keys the
executor's `_extract_node_settings` reads; an `Option` field is `none`
when the key is absent. -/
structure NodeData where
  label : Option String := none
  query : Option String := none
  userQuery : Option String := none
  value : Option String := none
  enabled : Option Bool := none
  topK : Option Int := none
  top_k : Option Int := none
  threshold : Option ℚ := none
  provider : Option String := none
  model : Option String := none
  systemPrompt : Option String := none
  temperature : Option ℚ := none
  maxTokens : Option Int := none
deriving DecidableEq

structure WorkflowNode where
  id : String := ""
  type : String := ""
  data : NodeData := {}
deriving DecidableEq

def toRaw (n : WorkflowNode) : RawNode := ⟨n.id, n.type⟩

structure WorkflowDefinition where
  id : Option String := none
  nodes : List WorkflowNode := []
  edges : List RawEdge := []
deriving DecidableEq

structure KBSettings where
  enabled : Bool
  topK : Int
  threshold : ℚ
deriving DecidableEq

/-- `_extract_node_settings` for a Retrieval node. -/
def extractKBSettings (d : NodeData) : KBSettings :=
  { enabled := d.enabled.getD true,
    topK := d.topK.getD (d.top_k.getD 3),
    threshold := d.threshold.getD (mkRat 7 10) }

structure LLMSettings where
  provider : String
  model : String
  systemPrompt : String
  temperature : ℚ
  maxTokens : Int
deriving DecidableEq

/-- `_extract_node_settings` for a Generation node. -/
def extractLLMSettings (d : NodeData) : LLMSettings :=
  { provider := d.provider.getD "google",
    model := d.model.getD "gemini-2.0-flash",
    systemPrompt := d.systemPrompt.getD "",
    temperature := d.temperature.getD (mkRat 7 10),
    maxTokens := d.maxTokens.getD 4096 }

/-- `_extract_node_settings` for an Input node:
`data.get("query", data.get("userQuery", data.get("value", "")))`. -/
def extractUserQuery (d : NodeData) : String :=
  d.query.getD (d.userQuery.getD (d.value.getD ""))

/-- The caller's payload dict, restricted to the keys the executor and
components read from it. -/
structure BasePayload where
  query : Option String := none
  prompt : Option String := none
  answer : Option String := none
  web_search : Bool := false
  max_tokens : Option Int := none
  topK : Option Int := none
deriving DecidableEq

/-- `node_types.get(node_id)`: the *last* recognized node with this id
wins (repeated dict assignment overwrites the value). -/
def node_types_get (nodes : List WorkflowNode) (nid : String) : Option String :=
  ((nodes.filter (fun n => decide (n.id = nid) && recognized (toRaw n))).getLast?).bind
    (fun n => nodeTypeMapGet n.type)

/-- `node_map.get(node_id)`. -/
def node_map_get (nodes : List WorkflowNode) (nid : String) : Option WorkflowNode :=
  (nodes.filter (fun n => decide (n.id = nid) && recognized (toRaw n))).getLast?

/-- `"ct" in present_components`. -/
def has_component (nodes : List WorkflowNode) (ct : String) : Bool :=
  nodes.any (fun n => nodeTypeMapGet n.type == some ct)

/-- `list(present_components)`: the distinct recognized component
types.  Python's set iteration order is unspecified and unobserved by
any claim; first-appearance order stands in for it. -/
def present_components (nodes : List WorkflowNode) : List String :=
  firstDedup (nodes.filterMap (fun n => nodeTypeMapGet n.type))

/-- Step 3 of `execute`: scan the execution order for the first Input
node with a truthy resolved query. -/
def scanQuery (nodes : List WorkflowNode) : List String → String
  | [] => ""
  | nid :: rest =>
      if node_types_get nodes nid = some "user_query" then
        let q := extractUserQuery ((node_map_get nodes nid).getD {}).data
        if q ≠ "" then q else scanQuery nodes rest
      else scanQuery nodes rest

def NODE_TYPE_LABELS : List (String × String) :=
  [("user_query", "input"), ("knowledge_base", "vector_search"),
   ("llm_engine", "llm"), ("output", "output")]

/-- The executor's external capabilities: the vector store's document
count, the embedding/search capabilities, the two LLM providers with
their configuration flags, and the web-search service. -/
structure ExecCaps where
  storeCount : Nat
  embed : String → Except String (List ℚ)
  search : List ℚ → Int → Except String (List SearchResult)
  openai_configured : Bool
  gemini_configured : Bool
  openaiCap : Prompt → String → ℚ → Int → Except String String
  geminiCap : Prompt → String → ℚ → Int → Except String String
  webSearch : String → Except String String

/-- The `_execution` record of the result.  The failure result carries
only id/workflow/duration/status/error; absent keys are the defaults.
Wall-clock durations are abstracted to `0`. -/
structure ExecutionMeta where
  execution_id : String
  workflow_id : String
  duration_seconds : ℚ := 0
  status : String
  components_used : List String := []
  kb_used : Bool := false
  llm_used : Bool := false
  context_length : Nat := 0
  error : Option String := none
deriving DecidableEq

/-- `execute`'s result record; `errorFlag` models the `error: True` key
(absent on success ↦ `false`), `query` is only present on success. -/
structure ExecResult where
  answer : String
  query : Option String := none
  errorFlag : Bool := false
  meta : ExecutionMeta
deriving DecidableEq

/-- The common tail of every component branch of
`_execute_dynamic_node`'s `try:` body: the branch's info/warning log
line followed by `log_node_complete`, yielding the branch's updated
context (an error from either log call is the exception propagating out
of the branch). -/
def logThenComplete (ls1 : LogServiceState) (execution_id node_id node_type_label : String)
    (level : LogLevel) (message : String) (md : List (String × String))
    (summary : Option String) (res : ComponentContext) :
    LogServiceState × Except String ComponentContext :=
  match log ls1 execution_id level message (some node_id) (some node_type_label) md with
  | .error e => (ls1, .error e)
  | .ok r =>
      match log_node_complete r.1 execution_id node_id node_type_label 0 summary with
      | .error e => (r.1, .error e)
      | .ok r2 => (r2.1, .ok res)

/-- The `try:` body of `_execute_dynamic_node` for an Input node
(the executor handles this inline, without the component object). -/
def nodeBodyUserQuery (ls1 : LogServiceState)
    (execution_id node_id node_type_label : String) (node : WorkflowNode)
    (payload : BasePayload) (context : ComponentContext) :
    LogServiceState × Except String ComponentContext :=
  let sq := extractUserQuery node.data
  let q := if sq ≠ "" then sq else payload.query.getD ""
  logThenComplete ls1 execution_id node_id node_type_label .info
    ("Query: " ++ truncatePreview q) []
    (some ("Query: " ++ pyTake 50 q ++ "..."))
    { context with query := some q }

/-- The `try:` body for a Retrieval node: run the component when
enabled and documents exist, otherwise skip-set `context.context`. -/
def nodeBodyKB (caps : ExecCaps) (ls1 : LogServiceState)
    (execution_id node_id node_type_label : String) (node : WorkflowNode)
    (payload : BasePayload) (context : ComponentContext) :
    LogServiceState × Except String ComponentContext :=
  let settings := extractKBSettings node.data
  let doc_count := caps.storeCount
  if settings.enabled ∧ 0 < doc_count then
    let kb_payload : KBPayload :=
      { query := some (context.query.getD ""), top_k := some settings.topK,
        topK := payload.topK, threshold := some settings.threshold }
    let rr := knowledge_base_run caps.embed caps.search kb_payload context
    logThenComplete ls1 execution_id node_id node_type_label .info
      ("Retrieved " ++ toString rr.1.chunks ++ " relevant chunks")
      [("chunks", toString rr.1.chunks), ("doc_count", toString doc_count)]
      (some ("Context: " ++ toString rr.1.context.length ++ " chars")) rr.2
  else
    let skip_reason := if ¬ settings.enabled then "disabled" else "no documents uploaded"
    logThenComplete ls1 execution_id node_id node_type_label .warning
      ("Knowledge base skipped: " ++ skip_reason) []
      (some "Context: 0 chars") { context with context := some "" }

/-- The `try:` body for a Generation node. -/
def nodeBodyLLM (caps : ExecCaps) (ls1 : LogServiceState)
    (execution_id node_id node_type_label : String) (node : WorkflowNode)
    (payload : BasePayload) (context : ComponentContext) :
    LogServiceState × Except String ComponentContext :=
  let settings := extractLLMSettings node.data
  let llm_payload : LLMEnginePayload :=
    { query := some (context.query.getD ""),
      context := context.context.getD "",
      provider := some settings.provider,
      model := some settings.model,
      systemPrompt := if settings.systemPrompt ≠ "" then some settings.systemPrompt
        else payload.prompt,
      temperature := some settings.temperature,
      maxTokens := some settings.maxTokens,
      prompt := payload.prompt,
      web_search := payload.web_search,
      max_tokens := payload.max_tokens }
  let rr := llm_engine_run
    (generate caps.openai_configured caps.gemini_configured caps.openaiCap caps.geminiCap)
    (some caps.webSearch) llm_payload context
  logThenComplete ls1 execution_id node_id node_type_label .info
    "LLM response generated"
    [("provider", settings.provider),
     ("has_context", toString (decide (rr.2.context.getD "" ≠ ""))),
     ("answer_preview", pyTake 100 (rr.2.answer.getD ""))]
    (some ("Answer: " ++ truncatePreview rr.1.answer)) rr.2

/-- The `try:` body for an Output node (`OutputComponent.run` is a pure
projection; the context is not mutated). -/
def nodeBodyOutput (ls1 : LogServiceState)
    (execution_id node_id node_type_label : String)
    (payload : BasePayload) (context : ComponentContext) :
    LogServiceState × Except String ComponentContext :=
  let a := context.answer.getD (payload.answer.getD "")
  logThenComplete ls1 execution_id node_id node_type_label .info
    "Output formatted" []
    (some ("Answer: " ++ truncatePreview a)) context

/-- The (executor-unreachable) default: no component branch matched;
`result` stays `None` and only the completion entry is logged. -/
def nodeBodyNone (ls1 : LogServiceState)
    (execution_id node_id node_type_label : String)
    (context : ComponentContext) :
    LogServiceState × Except String ComponentContext :=
  match log_node_complete ls1 execution_id node_id node_type_label 0 (some "None") with
  | .error e => (ls1, .error e)
  | .ok r2 => (r2.1, .ok context)

/-- The `except Exception` handler around the dispatched branch body:
a normal result passes through; an exception is logged with
`log_node_error` and re-raised. -/
def nodeAttemptWrap (attempt : LogServiceState × Except String ComponentContext)
    (execution_id node_id node_type_label : String) :
    LogServiceState × Except String ComponentContext :=
  match attempt with
  | (ls2, .ok ctx2) => (ls2, .ok ctx2)
  | (ls2, .error e) =>
      match log_node_error ls2 execution_id node_id node_type_label e with
      | .error e2 => (ls2, .error e2)
      | .ok r3 => (r3.1, .error e)

/-- `WorkflowExecutor._execute_dynamic_node`: log the node start,
dispatch on the component type inside a `try:`, and on any exception
log the node error and re-raise. -/
def _execute_dynamic_node (caps : ExecCaps) (ls : LogServiceState)
    (execution_id node_id component_type node_label : String)
    (node : WorkflowNode) (payload : BasePayload) (context : ComponentContext) :
    LogServiceState × Except String ComponentContext :=
  let node_type_label := (NODE_TYPE_LABELS.lookup component_type).getD component_type
  match log_node_start ls execution_id node_id node_type_label (some node_label) with
  | .error e => (ls, .error e)
  | .ok r0 =>
      let attempt :=
        if component_type = "user_query" then
          nodeBodyUserQuery r0.1 execution_id node_id node_type_label node payload context
        else if component_type = "knowledge_base" then
          nodeBodyKB caps r0.1 execution_id node_id node_type_label node payload context
        else if component_type = "llm_engine" then
          nodeBodyLLM caps r0.1 execution_id node_id node_type_label node payload context
        else if component_type = "output" then
          nodeBodyOutput r0.1 execution_id node_id node_type_label payload context
        else
          nodeBodyNone r0.1 execution_id node_id node_type_label context
      nodeAttemptWrap attempt execution_id node_id node_type_label

/-- One loop iteration's continuation: an exception from the node stops
the loop (propagating to the top-level `try/except`); a normal result
continues with the updated state and context. -/
def runCont (step : LogServiceState × Except String ComponentContext)
    (k : LogServiceState → ComponentContext →
      LogServiceState × Except String ComponentContext) :
    LogServiceState × Except String ComponentContext :=
  match step with
  | (ls2, .error e) => (ls2, .error e)
  | (ls2, .ok ctx2) => k ls2 ctx2

/-- The `for node_id in execution_order:` loop of `execute`; an error
is the exception propagating to the top-level `try/except`. -/
def runNodes (caps : ExecCaps) (nodes : List WorkflowNode) (payload : BasePayload)
    (execution_id : String) :
    List String → LogServiceState → ComponentContext →
      LogServiceState × Except String ComponentContext
  | [], ls, ctx => (ls, .ok ctx)
  | nid :: rest, ls, ctx =>
      match node_types_get nodes nid with
      | none => runNodes caps nodes payload execution_id rest ls ctx
      | some component_type =>
          runCont (_execute_dynamic_node caps ls execution_id nid component_type
              ((((node_map_get nodes nid).getD {}).data.label).getD component_type)
              ((node_map_get nodes nid).getD {}) payload ctx)
            (fun ls2 ctx2 => runNodes caps nodes payload execution_id rest ls2 ctx2)

/-- `workflow_id = workflow_id or definition.get("id", str(uuid4()))`. -/
def resolveWorkflowId (workflow_id defId : Option String) (fallback : String) : String :=
  match workflow_id with
  | some w => if w = "" then defId.getD fallback else w
  | none => defId.getD fallback

/-- `WorkflowExecutor.execute`, parametrised by the capabilities, the
set-iteration order `σ` of the recognized-id set, and the log-service
state.  The returned `Except` mirrors exception flow: every node-level
failure is converted by the top-level `try/except` into the structured
`"Workflow execution failed: ..."` result, so an `Except.error` could
only arise from the log service itself (proved impossible for reachable
states in the claim theorems). -/
def execute (caps : ExecCaps) (σ : List String) (ls : LogServiceState)
    (definition : WorkflowDefinition) (payload : BasePayload)
    (user_id workflow_id : Option String) :
    Except String (ExecResult × LogServiceState) :=
  let wf_id := resolveWorkflowId workflow_id definition.id ("wf-" ++ toString ls.clock)
  let execution_order := topological_sort σ (definition.nodes.map toRaw) definition.edges
  let has_kb := has_component definition.nodes "knowledge_base"
  let has_llm := has_component definition.nodes "llm_engine"
  match start_execution ls wf_id user_id (execution_order.length : Int) with
  | .error e => .error e
  | .ok se =>
      let execution_id := se.1
      let q0 := payload.query.getD ""
      let query := if q0 ≠ "" then q0 else scanQuery definition.nodes execution_order
      match runNodes caps definition.nodes payload execution_id execution_order se.2
          { query := some query } with
      | (ls2, .ok ctx) =>
          let answer :=
            if has_llm then ctx.answer.getD (ctx.output.getD "")
            else if has_kb then
              (if ctx.context.getD "" ≠ "" then
                "📚 Retrieved from documents:\n\n" ++ ctx.context.getD ""
               else "No relevant documents found.")
            else
              "Query received: " ++ query ++
                "\n\n⚠️ No LLM node in workflow. Add an LLM node to generate AI responses."
          match complete_execution ls2 execution_id .completed none with
          | .error e => .error e
          | .ok ls3 =>
              .ok ({ answer := answer, query := some query,
                     meta := { execution_id := execution_id, workflow_id := wf_id,
                               status := "completed",
                               components_used := present_components definition.nodes,
                               kb_used := has_kb, llm_used := has_llm,
                               context_length := (ctx.context.getD "").length } }, ls3)
      | (ls2, .error e) =>
          match log ls2 execution_id .errorL ("Workflow execution failed: " ++ e)
              none none [("error", e)] with
          | .error e2 => .error e2
          | .ok r =>
              match complete_execution r.1 execution_id .failed (some e) with
              | .error e2 => .error e2
              | .ok ls4 =>
                  .ok ({ answer := "Workflow execution failed: " ++ e, errorFlag := true,
                         meta := { execution_id := execution_id, workflow_id := wf_id,
                                   status := "failed", error := some e } }, ls4)

/-! ## Lemmas: the log service cannot fail for a live execution -/

theorem lookup_map_update_isSome (eid k : String)
    (f : WorkflowExecutionContext → WorkflowExecutionContext) :
    ∀ l : List (String × WorkflowExecutionContext),
      ((l.map (fun p => if p.1 = eid then (p.1, f p.2) else p)).lookup k).isSome
        = (l.lookup k).isSome := by
  intro l
  induction l with
  | nil => rfl
  | cons p ps ih =>
      obtain ⟨a, v⟩ := p
      simp only [List.map_cons]
      by_cases h : a = eid
      · subst h
        rw [show (if (a, v).1 = a then ((a, v).1, f (a, v).2) else (a, v))
            = (a, f v) from if_pos rfl]
        cases hk : (k == a) <;> simp [List.lookup, hk, ih]
      · rw [show (if (a, v).1 = eid then ((a, v).1, f (a, v).2) else (a, v))
            = (a, v) from if_neg h]
        cases hk : (k == a) <;> simp [List.lookup, hk, ih]

theorem updateExec_isSome (s : LogServiceState) (eid : String)
    (f : WorkflowExecutionContext → WorkflowExecutionContext) (k : String) :
    ((updateExec s eid f).executions.lookup k).isSome
      = (s.executions.lookup k).isSome :=
  lookup_map_update_isSome eid k f s.executions

theorem notifySubscribers_executions (s : LogServiceState) (eid : String)
    (entry : ExecutionLogEntry) :
    (notifySubscribers s eid entry).executions = s.executions := by
  unfold notifySubscribers setSubscriberQueues
  by_cases h : (s.subscribers.lookup eid).isSome <;> simp [h]

theorem log_isSome (s : LogServiceState) (eid : String) (level : LogLevel)
    (message : String) (nid ntype : Option String) (md : List (String × String))
    (s2 : LogServiceState) (entry : ExecutionLogEntry)
    (h : log s eid level message nid ntype md = Except.ok (s2, entry)) (k : String) :
    (s2.executions.lookup k).isSome = (s.executions.lookup k).isSome := by
  unfold log at h
  cases hl : s.executions.lookup eid with
  | none => rw [hl] at h; exact absurd h (by simp)
  | some ctx =>
      rw [hl] at h
      obtain ⟨h3, -⟩ := Prod.mk.inj (Except.ok.inj h)
      rw [← h3, notifySubscribers_executions, updateExec_isSome]
      rfl

theorem log_ok_of_present (s : LogServiceState) (eid : String)
    (h : (s.executions.lookup eid).isSome = true) (level : LogLevel)
    (message : String) (nid ntype : Option String) (md : List (String × String)) :
    ∃ s2 entry, log s eid level message nid ntype md = Except.ok (s2, entry) := by
  unfold log
  cases hl : s.executions.lookup eid with
  | none => rw [hl] at h; simp at h
  | some ctx => exact ⟨_, _, rfl⟩

theorem log_node_complete_ok (s : LogServiceState) (eid nid ntype : String)
    (dur : ℚ) (summary : Option String)
    (h : (s.executions.lookup eid).isSome = true) :
    ∃ s2 entry, log_node_complete s eid nid ntype dur summary = Except.ok (s2, entry) ∧
      ∀ k, (s2.executions.lookup k).isSome = (s.executions.lookup k).isSome := by
  unfold log_node_complete
  cases hl : s.executions.lookup eid with
  | none => rw [hl] at h; simp at h
  | some ctx =>
      have h1 : ((updateExec s eid fun c =>
          { c with completed_nodes := c.completed_nodes + 1 }).executions.lookup
            eid).isSome = true := by
        rw [updateExec_isSome]
        exact h
      obtain ⟨s2, entry, heq⟩ := log_ok_of_present _ eid h1 .info
        "Node completed successfully" (some nid) (some ntype)
        [("event", "node_completed"), ("duration_ms", toString dur),
         ("output_summary", summary.getD "None")]
      refine ⟨s2, entry, heq, fun k => ?_⟩
      rw [log_isSome _ _ _ _ _ _ _ _ _ heq k, updateExec_isSome]

theorem lookup_append_isSome (k : String) (c : WorkflowExecutionContext) :
    ∀ l : List (String × WorkflowExecutionContext),
      ((l ++ [(k, c)]).lookup k).isSome = true := by
  intro l
  induction l with
  | nil => simp [List.lookup]
  | cons p ps ih =>
      obtain ⟨a, v⟩ := p
      cases hk : (k == a) <;> simp [List.lookup, hk, ih]

theorem start_execution_ok (s : LogServiceState) (wid : String)
    (uid : Option String) (tn : Int) :
    ∃ eid s2, start_execution s wid uid tn = Except.ok (eid, s2) ∧
      (s2.executions.lookup eid).isSome = true := by
  unfold start_execution
  obtain ⟨s2, entry, heq⟩ := log_ok_of_present
    { executions := (tick s).2.executions ++
        [((tick s).1,
          { workflow_id := wid, execution_id := (tick s).1, user_id := uid,
            status := .running, started_at := (tick s).1, total_nodes := tn })],
      subscribers := (tick s).2.subscribers, clock := (tick s).2.clock }
    (tick s).1 (lookup_append_isSome _ _ _) .info
    "Workflow execution started" none none [("total_nodes", toString tn)]
  refine ⟨(tick s).1, s2, ?_, ?_⟩
  · simp only [heq]
  · rw [log_isSome _ _ _ _ _ _ _ _ _ heq]
    exact lookup_append_isSome _ _ _

theorem except_bind_close (eid : String)
    (x : Except String (LogServiceState × ExecutionLogEntry))
    (hx : ∃ r, x = Except.ok r) :
    ∃ s3, (match x with
      | Except.error e => Except.error e
      | Except.ok r => Except.ok (closeSubscribers r.1 eid)) = Except.ok s3 := by
  obtain ⟨r, hr⟩ := hx
  subst hr
  exact ⟨_, rfl⟩

theorem complete_execution_ok (s : LogServiceState) (eid : String)
    (status : ExecutionStatus) (err : Option String)
    (h : (s.executions.lookup eid).isSome = true) :
    ∃ s3, complete_execution s eid status err = Except.ok s3 := by
  unfold complete_execution
  cases hl : s.executions.lookup eid with
  | none => exact ⟨s, rfl⟩
  | some ctx =>
      obtain ⟨s2, entry, heq⟩ := log_ok_of_present _ eid
        ((updateExec_isSome (tick s).2 eid
          (fun c => { c with status := status, ended_at := some (tick s).1, error := err })
          eid).trans h)
        (if status = ExecutionStatus.completed then LogLevel.info else LogLevel.errorL)
        ("Workflow execution " ++ status.value ++
          match err with
          | some e => ": " ++ e
          | none => "")
        none none
        [("event", "execution_completed"), ("status", status.value)]
      exact except_bind_close eid _ ⟨(s2, entry), heq⟩

/-! ## Lemmas: executor liveness when every provider fails -/

/-- Python `str.startswith`. -/
def strStartsWith (s pat : String) : Bool := pat.toList.isPrefixOf s.toList

theorem strStartsWith_append (p t : String) : strStartsWith (p ++ t) p = true := by
  show p.data.isPrefixOf (p.data ++ t.data) = true
  exact List.isPrefixOf_iff_prefix.mpr (List.prefix_append _ _)

/-- The context carries a non-empty resolved query. -/
def queryLive (c : ComponentContext) : Prop := ∃ q, c.query = some q ∧ q ≠ ""

/-- The context carries the Generation component's caught-failure
answer. -/
def answerFailed (c : ComponentContext) : Prop :=
  ∃ e, c.answer = some ("Failed to generate response: " ++ e)

theorem logThenComplete_ok (ls1 : LogServiceState) (eid nid ntl : String)
    (lvl : LogLevel) (msg : String) (md : List (String × String))
    (summary : Option String) (res : ComponentContext)
    (h : (ls1.executions.lookup eid).isSome = true) :
    ∃ ls2, logThenComplete ls1 eid nid ntl lvl msg md summary res
        = (ls2, Except.ok res) ∧
      ∀ k, (ls2.executions.lookup k).isSome = (ls1.executions.lookup k).isSome := by
  unfold logThenComplete
  obtain ⟨s2, entry, heq⟩ := log_ok_of_present ls1 eid h lvl msg (some nid) (some ntl) md
  rw [heq]
  show ∃ ls2, (match log_node_complete s2 eid nid ntl 0 summary with
    | Except.error e => (s2, Except.error e)
    | Except.ok r2 => (r2.1, Except.ok res)) = (ls2, Except.ok res) ∧
    ∀ k, (ls2.executions.lookup k).isSome = (ls1.executions.lookup k).isSome
  obtain ⟨s3, e3, hc, hk⟩ := log_node_complete_ok s2 eid nid ntl 0 summary
    (by rw [log_isSome _ _ _ _ _ _ _ _ _ heq]; exact h)
  rw [hc]
  exact ⟨s3, rfl, fun k => (hk k).trans (log_isSome _ _ _ _ _ _ _ _ _ heq k)⟩

theorem knowledge_base_run_preserves (embed : String → Except String (List ℚ))
    (search : List ℚ → Int → Except String (List SearchResult))
    (payload : KBPayload) (c : ComponentContext) :
    (knowledge_base_run embed search payload c).2.query = c.query ∧
    (knowledge_base_run embed search payload c).2.answer = c.answer := by
  refine ⟨?_, ?_⟩ <;> simp only [knowledge_base_run] <;>
    (repeat' first | rfl | split)

theorem has_component_of_node_types (nodes : List WorkflowNode) (nid ct : String)
    (h : node_types_get nodes nid = some ct) : has_component nodes ct = true := by
  unfold node_types_get at h
  cases hg : (nodes.filter
      (fun n => decide (n.id = nid) && recognized (toRaw n))).getLast? with
  | none => rw [hg] at h; exact absurd h (by simp)
  | some n =>
      rw [hg] at h
      have h' : nodeTypeMapGet n.type = some ct := h
      obtain ⟨hne, hEq⟩ := List.mem_getLast?_eq_getLast (Option.mem_def.mpr hg)
      have hmem : n ∈ nodes :=
        (List.mem_filter.mp (hEq ▸ List.getLast_mem hne)).1
      unfold has_component
      rw [List.any_eq_true]
      exact ⟨n, hmem, by rw [h']; exact beq_self_eq_true _⟩

theorem generate_openai_errors (oc : Bool)
    (cap : Prompt → String → ℚ → Int → Except String String)
    (hcap : ∀ p m t mt, ∃ e, cap p m t mt = Except.error e)
    (prompt : Prompt) (model : String) (t : ℚ) (mt : Int) :
    ∃ e, _generate_openai oc cap prompt model t mt = Except.error e := by
  cases oc with
  | false => exact ⟨_, rfl⟩
  | true =>
      obtain ⟨e, he⟩ := hcap prompt model t mt
      refine ⟨e, ?_⟩
      unfold _generate_openai
      rw [if_pos rfl, he]

theorem generate_gemini_errors (gc : Bool)
    (cap : Prompt → String → ℚ → Int → Except String String)
    (hcap : ∀ p m t mt, ∃ e, cap p m t mt = Except.error e)
    (prompt : Prompt) (model : String) (t : ℚ) (mt : Int) :
    ∃ e, _generate_gemini gc cap prompt model t mt = Except.error e := by
  cases gc with
  | false => exact ⟨_, rfl⟩
  | true =>
      obtain ⟨e, he⟩ := hcap prompt model t mt
      refine ⟨e, ?_⟩
      unfold _generate_gemini
      rw [if_pos rfl, he]

theorem fallback_generate_errors (oc gc : Bool)
    (ocap gcap : Prompt → String → ℚ → Int → Except String String)
    (ho : ∀ p m t mt, ∃ e, ocap p m t mt = Except.error e)
    (hg : ∀ p m t mt, ∃ e, gcap p m t mt = Except.error e)
    (prompt : Prompt) (fp : LLMProvider) (t : ℚ) (mt : Int) :
    ∃ e, _fallback_generate oc gc ocap gcap prompt fp t mt = Except.error e := by
  simp only [_fallback_generate]
  by_cases h1 : fp.other = LLMProvider.openai ∧ oc = true
  · rw [if_pos h1]
    obtain ⟨e, he⟩ := generate_openai_errors oc ocap ho prompt "gpt-4o-mini" t mt
    rw [he]
    exact ⟨_, rfl⟩
  · rw [if_neg h1]
    by_cases h2 : fp.other = LLMProvider.gemini ∧ gc = true
    · rw [if_pos h2]
      obtain ⟨e, he⟩ := generate_gemini_errors gc gcap hg prompt "gemini-1.5-flash" t mt
      rw [he]
      exact ⟨_, rfl⟩
    · rw [if_neg h2]
      exact ⟨_, rfl⟩

theorem generate_errors (oc gc : Bool)
    (ocap gcap : Prompt → String → ℚ → Int → Except String String)
    (ho : ∀ p m t mt, ∃ e, ocap p m t mt = Except.error e)
    (hg : ∀ p m t mt, ∃ e, gcap p m t mt = Except.error e)
    (query : String) (context prompt provider model : Option String)
    (t : ℚ) (mt : Int) (fb : Bool) :
    ∃ e, generate oc gc ocap gcap query context prompt provider model t mt fb
      = Except.error e := by
  simp only [generate]
  cases hr : _resolve_provider_model oc gc provider model with
  | error e => exact ⟨e, rfl⟩
  | ok pm =>
      obtain ⟨pv, md⟩ := pm
      cases pv with
      | openai =>
          show ∃ e, (match _generate_openai oc ocap (_build_prompt query context prompt)
              md t mt with
            | Except.ok r => Except.ok r
            | Except.error e1 =>
                if fb = true then
                  _fallback_generate oc gc ocap gcap (_build_prompt query context prompt)
                    LLMProvider.openai t mt
                else Except.error e1) = Except.error e
          obtain ⟨e1, he1⟩ :=
            generate_openai_errors oc ocap ho (_build_prompt query context prompt) md t mt
          rw [he1]
          cases fb with
          | false => exact ⟨e1, rfl⟩
          | true =>
              obtain ⟨e2, he2⟩ := fallback_generate_errors oc gc ocap gcap ho hg
                (_build_prompt query context prompt) LLMProvider.openai t mt
              exact ⟨e2, he2⟩
      | gemini =>
          show ∃ e, (match _generate_gemini gc gcap (_build_prompt query context prompt)
              md t mt with
            | Except.ok r => Except.ok r
            | Except.error e1 =>
                if fb = true then
                  _fallback_generate oc gc ocap gcap (_build_prompt query context prompt)
                    LLMProvider.gemini t mt
                else Except.error e1) = Except.error e
          obtain ⟨e1, he1⟩ :=
            generate_gemini_errors gc gcap hg (_build_prompt query context prompt) md t mt
          rw [he1]
          cases fb with
          | false => exact ⟨e1, rfl⟩
          | true =>
              obtain ⟨e2, he2⟩ := fallback_generate_errors oc gc ocap gcap ho hg
                (_build_prompt query context prompt) LLMProvider.gemini t mt
              exact ⟨e2, he2⟩

theorem llm_engine_run_failed
    (llmGen : String → Option String → Option String → Option String → Option String →
      ℚ → Int → Bool → Except String String)
    (hgen : ∀ a b c d e f g h, ∃ err, llmGen a b c d e f g h = Except.error err)
    (searchCap : Option (String → Except String String))
    (payload : LLMEnginePayload) (context : ComponentContext)
    (hq : ¬ context.query.getD (payload.query.getD "") = "") :
    ∃ e, llm_engine_run llmGen searchCap payload context =
      ({ answer := "Failed to generate response: " ++ e, error := true },
       { context with answer := some ("Failed to generate response: " ++ e) }) := by
  choose F hF using hgen
  simp only [llm_engine_run]
  rw [if_neg hq]
  simp only [hF]
  exact ⟨_, rfl⟩

theorem nodeBodyUserQuery_ok (ls1 : LogServiceState) (eid nid ntl : String)
    (node : WorkflowNode) (payload : BasePayload) (ctx : ComponentContext)
    (hq0 : payload.query.getD "" ≠ "")
    (h : (ls1.executions.lookup eid).isSome = true) :
    ∃ ls2 ctx2,
      nodeBodyUserQuery ls1 eid nid ntl node payload ctx = (ls2, Except.ok ctx2) ∧
      (∀ k, (ls2.executions.lookup k).isSome = (ls1.executions.lookup k).isSome) ∧
      queryLive ctx2 ∧ ctx2.answer = ctx.answer := by
  have hqne : (if extractUserQuery node.data ≠ "" then extractUserQuery node.data
      else payload.query.getD "") ≠ "" := by
    by_cases hsq : extractUserQuery node.data ≠ ""
    · rwa [if_pos hsq]
    · rwa [if_neg hsq]
  obtain ⟨ls2, hmain, hk⟩ := logThenComplete_ok ls1 eid nid ntl .info _ _ _
    { ctx with query := some (if extractUserQuery node.data ≠ "" then
        extractUserQuery node.data else payload.query.getD "") } h
  exact ⟨ls2, _, hmain, hk, ⟨_, rfl, hqne⟩, rfl⟩

theorem nodeBodyKB_ok (caps : ExecCaps) (ls1 : LogServiceState) (eid nid ntl : String)
    (node : WorkflowNode) (payload : BasePayload) (ctx : ComponentContext)
    (h : (ls1.executions.lookup eid).isSome = true) :
    ∃ ls2 ctx2,
      nodeBodyKB caps ls1 eid nid ntl node payload ctx = (ls2, Except.ok ctx2) ∧
      (∀ k, (ls2.executions.lookup k).isSome = (ls1.executions.lookup k).isSome) ∧
      ctx2.query = ctx.query ∧ ctx2.answer = ctx.answer := by
  simp only [nodeBodyKB]
  by_cases hen : (extractKBSettings node.data).enabled = true ∧ 0 < caps.storeCount
  · rw [if_pos hen]
    obtain ⟨ls2, hmain, hk⟩ := logThenComplete_ok ls1 eid nid ntl .info _ _ _ _ h
    refine ⟨ls2, _, hmain, hk, ?_, ?_⟩
    · exact (knowledge_base_run_preserves caps.embed caps.search _ ctx).1
    · exact (knowledge_base_run_preserves caps.embed caps.search _ ctx).2
  · rw [if_neg hen]
    obtain ⟨ls2, hmain, hk⟩ := logThenComplete_ok ls1 eid nid ntl .warning _ _ _
      { ctx with context := some "" } h
    exact ⟨ls2, _, hmain, hk, rfl, rfl⟩

theorem nodeBodyLLM_ok (caps : ExecCaps) (ls1 : LogServiceState) (eid nid ntl : String)
    (node : WorkflowNode) (payload : BasePayload) (ctx : ComponentContext)
    (ho : ∀ p m t mt, ∃ e, caps.openaiCap p m t mt = Except.error e)
    (hg : ∀ p m t mt, ∃ e, caps.geminiCap p m t mt = Except.error e)
    (hql : queryLive ctx)
    (h : (ls1.executions.lookup eid).isSome = true) :
    ∃ ls2 ctx2,
      nodeBodyLLM caps ls1 eid nid ntl node payload ctx = (ls2, Except.ok ctx2) ∧
      (∀ k, (ls2.executions.lookup k).isSome = (ls1.executions.lookup k).isSome) ∧
      ctx2.query = ctx.query ∧ answerFailed ctx2 := by
  obtain ⟨q, hq1, hq2⟩ := hql
  obtain ⟨e, hrr⟩ := llm_engine_run_failed
    (generate caps.openai_configured caps.gemini_configured caps.openaiCap caps.geminiCap)
    (fun a b c d e' f g h' => generate_errors caps.openai_configured caps.gemini_configured
      caps.openaiCap caps.geminiCap ho hg a b c d e' f g h')
    (some caps.webSearch)
    { query := some (ctx.query.getD ""), context := ctx.context.getD "",
      provider := some (extractLLMSettings node.data).provider,
      model := some (extractLLMSettings node.data).model,
      systemPrompt := if (extractLLMSettings node.data).systemPrompt ≠ "" then
          some (extractLLMSettings node.data).systemPrompt else payload.prompt,
      temperature := some (extractLLMSettings node.data).temperature,
      maxTokens := some (extractLLMSettings node.data).maxTokens,
      prompt := payload.prompt, web_search := payload.web_search,
      max_tokens := payload.max_tokens }
    ctx (by rw [hq1]; exact hq2)
  simp only [nodeBodyLLM]
  obtain ⟨ls2, hmain, hk⟩ := logThenComplete_ok ls1 eid nid ntl .info _ _ _ _ h
  refine ⟨ls2, _, hmain, hk, ?_, ?_⟩
  · rw [hrr]
  · exact ⟨e, by rw [hrr]⟩

theorem nodeBodyOutput_ok (ls1 : LogServiceState) (eid nid ntl : String)
    (payload : BasePayload) (ctx : ComponentContext)
    (h : (ls1.executions.lookup eid).isSome = true) :
    ∃ ls2 ctx2,
      nodeBodyOutput ls1 eid nid ntl payload ctx = (ls2, Except.ok ctx2) ∧
      (∀ k, (ls2.executions.lookup k).isSome = (ls1.executions.lookup k).isSome) ∧
      ctx2 = ctx := by
  obtain ⟨ls2, hmain, hk⟩ := logThenComplete_ok ls1 eid nid ntl .info
    "Output formatted" [] (some ("Answer: " ++ truncatePreview
      (ctx.answer.getD (payload.answer.getD "")))) ctx h
  exact ⟨ls2, ctx, hmain, hk, rfl⟩

theorem nodeBodyNone_ok (ls1 : LogServiceState) (eid nid ntl : String)
    (ctx : ComponentContext)
    (h : (ls1.executions.lookup eid).isSome = true) :
    ∃ ls2 ctx2,
      nodeBodyNone ls1 eid nid ntl ctx = (ls2, Except.ok ctx2) ∧
      (∀ k, (ls2.executions.lookup k).isSome = (ls1.executions.lookup k).isSome) ∧
      ctx2 = ctx := by
  unfold nodeBodyNone
  obtain ⟨s3, e3, hc, hk⟩ := log_node_complete_ok ls1 eid nid ntl 0 (some "None") h
  rw [hc]
  exact ⟨s3, ctx, rfl, hk, rfl⟩

theorem nodeAttemptWrap_ok (x : LogServiceState × Except String ComponentContext)
    (ls2 : LogServiceState) (ctx2 : ComponentContext)
    (hx : x = (ls2, Except.ok ctx2)) (eid nid ntl : String) :
    nodeAttemptWrap x eid nid ntl = (ls2, Except.ok ctx2) := by
  rw [hx]
  rfl

theorem lookup_mem_values {α β : Type} [BEq α] (k : α) (v : β) :
    ∀ l : List (α × β), l.lookup k = some v → ∃ p, p ∈ l ∧ p.2 = v := by
  intro l
  induction l with
  | nil => intro h; exact absurd h (by simp [List.lookup])
  | cons p ps ih =>
      obtain ⟨a, b⟩ := p
      intro h
      simp only [List.lookup] at h
      cases hk : (k == a) with
      | true =>
          rw [hk] at h
          exact ⟨(a, b), List.mem_cons_self _ _, Option.some.inj h⟩
      | false =>
          rw [hk] at h
          obtain ⟨q, hq1, hq2⟩ := ih h
          exact ⟨q, List.mem_cons_of_mem _ hq1, hq2⟩

/-- `node_types` stores only the four component-type values of
`NODE_TYPE_MAP`. -/
theorem node_types_get_cases (nodes : List WorkflowNode) (nid ct : String)
    (h : node_types_get nodes nid = some ct) :
    ct = "user_query" ∨ ct = "knowledge_base" ∨ ct = "llm_engine" ∨ ct = "output" := by
  unfold node_types_get at h
  cases hg : (nodes.filter
      (fun n => decide (n.id = nid) && recognized (toRaw n))).getLast? with
  | none => rw [hg] at h; exact absurd h (by simp)
  | some n =>
      rw [hg] at h
      have h' : NODE_TYPE_MAP.lookup n.type = some ct := h
      obtain ⟨p, hp1, hp2⟩ := lookup_mem_values n.type ct NODE_TYPE_MAP h'
      have hall : ∀ p ∈ NODE_TYPE_MAP, p.2 = "user_query" ∨ p.2 = "knowledge_base" ∨
          p.2 = "llm_engine" ∨ p.2 = "output" := by decide
      have hv := hall p hp1
      rw [hp2] at hv
      exact hv

theorem runCont_ok (x : LogServiceState × Except String ComponentContext)
    (ls1 : LogServiceState) (ctx1 : ComponentContext)
    (hx : x = (ls1, Except.ok ctx1))
    (k : LogServiceState → ComponentContext →
      LogServiceState × Except String ComponentContext) :
    runCont x k = k ls1 ctx1 := by
  rw [hx]
  rfl

theorem execute_node_ok (caps : ExecCaps) (ls : LogServiceState)
    (eid nid ct nlabel : String) (node : WorkflowNode) (payload : BasePayload)
    (ctx : ComponentContext)
    (hvalid : ct = "user_query" ∨ ct = "knowledge_base" ∨ ct = "llm_engine" ∨ ct = "output")
    (ho : ∀ p m t mt, ∃ e, caps.openaiCap p m t mt = Except.error e)
    (hg : ∀ p m t mt, ∃ e, caps.geminiCap p m t mt = Except.error e)
    (hq0 : payload.query.getD "" ≠ "")
    (hql : queryLive ctx)
    (h : (ls.executions.lookup eid).isSome = true) :
    ∃ ls2 ctx2,
      _execute_dynamic_node caps ls eid nid ct nlabel node payload ctx
        = (ls2, Except.ok ctx2) ∧
      (∀ k, (ls2.executions.lookup k).isSome = (ls.executions.lookup k).isSome) ∧
      queryLive ctx2 ∧ (answerFailed ctx → answerFailed ctx2) ∧
      (ct = "llm_engine" → answerFailed ctx2) := by
  rcases hvalid with hct | hct | hct | hct <;> subst hct
  · obtain ⟨s0, e0, heq0⟩ := log_ok_of_present ls eid h .info
      ("Starting node: " ++ ((some nlabel).getD nid)) (some nid)
      (some ((NODE_TYPE_LABELS.lookup "user_query").getD "user_query"))
      [("event", "node_started")]
    have heq0' : log_node_start ls eid nid
        ((NODE_TYPE_LABELS.lookup "user_query").getD "user_query") (some nlabel)
        = Except.ok (s0, e0) := heq0
    have hpres0 : (s0.executions.lookup eid).isSome = true :=
      (log_isSome _ _ _ _ _ _ _ _ _ heq0 eid).trans h
    obtain ⟨ls2, ctx2, hb, hk, hql2, hans⟩ := nodeBodyUserQuery_ok s0 eid nid
      ((NODE_TYPE_LABELS.lookup "user_query").getD "user_query") node payload ctx hq0 hpres0
    refine ⟨ls2, ctx2, ?_, fun k => (hk k).trans (log_isSome _ _ _ _ _ _ _ _ _ heq0 k),
      hql2, fun ha => ha.elim (fun e he => ⟨e, hans.trans he⟩),
      fun hc => absurd hc (by decide)⟩
    simp only [_execute_dynamic_node]
    rw [heq0']
    exact nodeAttemptWrap_ok _ ls2 ctx2 hb eid nid _
  · obtain ⟨s0, e0, heq0⟩ := log_ok_of_present ls eid h .info
      ("Starting node: " ++ ((some nlabel).getD nid)) (some nid)
      (some ((NODE_TYPE_LABELS.lookup "knowledge_base").getD "knowledge_base"))
      [("event", "node_started")]
    have heq0' : log_node_start ls eid nid
        ((NODE_TYPE_LABELS.lookup "knowledge_base").getD "knowledge_base") (some nlabel)
        = Except.ok (s0, e0) := heq0
    have hpres0 : (s0.executions.lookup eid).isSome = true :=
      (log_isSome _ _ _ _ _ _ _ _ _ heq0 eid).trans h
    obtain ⟨ls2, ctx2, hb, hk, hqeq, hans⟩ := nodeBodyKB_ok caps s0 eid nid
      ((NODE_TYPE_LABELS.lookup "knowledge_base").getD "knowledge_base") node payload ctx hpres0
    refine ⟨ls2, ctx2, ?_, fun k => (hk k).trans (log_isSome _ _ _ _ _ _ _ _ _ heq0 k),
      hql.elim (fun q hq12 => ⟨q, hqeq.trans hq12.1, hq12.2⟩),
      fun ha => ha.elim (fun e he => ⟨e, hans.trans he⟩),
      fun hc => absurd hc (by decide)⟩
    simp only [_execute_dynamic_node]
    rw [heq0']
    exact nodeAttemptWrap_ok _ ls2 ctx2 hb eid nid _
  · obtain ⟨s0, e0, heq0⟩ := log_ok_of_present ls eid h .info
      ("Starting node: " ++ ((some nlabel).getD nid)) (some nid)
      (some ((NODE_TYPE_LABELS.lookup "llm_engine").getD "llm_engine"))
      [("event", "node_started")]
    have heq0' : log_node_start ls eid nid
        ((NODE_TYPE_LABELS.lookup "llm_engine").getD "llm_engine") (some nlabel)
        = Except.ok (s0, e0) := heq0
    have hpres0 : (s0.executions.lookup eid).isSome = true :=
      (log_isSome _ _ _ _ _ _ _ _ _ heq0 eid).trans h
    obtain ⟨ls2, ctx2, hb, hk, hqeq, haf⟩ := nodeBodyLLM_ok caps s0 eid nid
      ((NODE_TYPE_LABELS.lookup "llm_engine").getD "llm_engine") node payload ctx
      ho hg hql hpres0
    refine ⟨ls2, ctx2, ?_, fun k => (hk k).trans (log_isSome _ _ _ _ _ _ _ _ _ heq0 k),
      hql.elim (fun q hq12 => ⟨q, hqeq.trans hq12.1, hq12.2⟩),
      fun _ => haf, fun _ => haf⟩
    simp only [_execute_dynamic_node]
    rw [heq0']
    exact nodeAttemptWrap_ok _ ls2 ctx2 hb eid nid _
  · obtain ⟨s0, e0, heq0⟩ := log_ok_of_present ls eid h .info
      ("Starting node: " ++ ((some nlabel).getD nid)) (some nid)
      (some ((NODE_TYPE_LABELS.lookup "output").getD "output"))
      [("event", "node_started")]
    have heq0' : log_node_start ls eid nid
        ((NODE_TYPE_LABELS.lookup "output").getD "output") (some nlabel)
        = Except.ok (s0, e0) := heq0
    have hpres0 : (s0.executions.lookup eid).isSome = true :=
      (log_isSome _ _ _ _ _ _ _ _ _ heq0 eid).trans h
    obtain ⟨ls2, ctx2, hb, hk, hceq⟩ := nodeBodyOutput_ok s0 eid nid
      ((NODE_TYPE_LABELS.lookup "output").getD "output") payload ctx hpres0
    subst hceq
    refine ⟨ls2, ctx2, ?_, fun k => (hk k).trans (log_isSome _ _ _ _ _ _ _ _ _ heq0 k),
      hql, fun ha => ha, fun hc => absurd hc (by decide)⟩
    simp only [_execute_dynamic_node]
    rw [heq0']
    exact nodeAttemptWrap_ok _ ls2 ctx2 hb eid nid _

theorem runNodes_ok (caps : ExecCaps) (nodes : List WorkflowNode) (payload : BasePayload)
    (eid : String)
    (ho : ∀ p m t mt, ∃ e, caps.openaiCap p m t mt = Except.error e)
    (hg : ∀ p m t mt, ∃ e, caps.geminiCap p m t mt = Except.error e)
    (hq0 : payload.query.getD "" ≠ "")
    (order : List String) :
    ∀ (ls : LogServiceState) (ctx : ComponentContext),
      (ls.executions.lookup eid).isSome = true → queryLive ctx →
      ∃ ls2 ctx2, runNodes caps nodes payload eid order ls ctx = (ls2, Except.ok ctx2) ∧
        (∀ k, (ls2.executions.lookup k).isSome = (ls.executions.lookup k).isSome) ∧
        queryLive ctx2 ∧ (answerFailed ctx → answerFailed ctx2) ∧
        ((∃ nid, nid ∈ order ∧ node_types_get nodes nid = some "llm_engine") →
          answerFailed ctx2) := by
  induction order with
  | nil =>
      intro ls ctx h hql
      exact ⟨ls, ctx, rfl, fun k => rfl, hql, fun ha => ha,
        fun he => he.elim (fun n hn => absurd hn.1 (List.not_mem_nil n))⟩
  | cons nid rest ih =>
      intro ls ctx h hql
      cases hty : node_types_get nodes nid with
      | none =>
          obtain ⟨ls2, ctx2, hrun, hk, hql2, hansp, hllm⟩ := ih ls ctx h hql
          refine ⟨ls2, ctx2, ?_, hk, hql2, hansp, ?_⟩
          · simp only [runNodes]
            rw [hty]
            exact hrun
          · rintro ⟨n2, hmem, hty2⟩
            rcases List.mem_cons.mp hmem with hEq | hmem2
            · subst hEq
              rw [hty] at hty2
              exact Option.noConfusion hty2
            · exact hllm ⟨n2, hmem2, hty2⟩
      | some ct =>
          obtain ⟨ls1, ctx1, hb, hk1, hql1, hansp1, hllm1⟩ := execute_node_ok caps ls eid
            nid ct ((((node_map_get nodes nid).getD {}).data.label).getD ct)
            ((node_map_get nodes nid).getD {}) payload ctx
            (node_types_get_cases nodes nid ct hty) ho hg hq0 hql h
          obtain ⟨ls2, ctx2, hrun, hk2, hql2, hansp2, hllm2⟩ := ih ls1 ctx1
            ((hk1 eid).trans h) hql1
          refine ⟨ls2, ctx2, ?_, fun k => (hk2 k).trans (hk1 k), hql2,
            fun ha => hansp2 (hansp1 ha), ?_⟩
          · simp only [runNodes]
            rw [hty]
            exact (runCont_ok _ ls1 ctx1 hb _).trans hrun
          · rintro ⟨n2, hmem, hty2⟩
            rcases List.mem_cons.mp hmem with hEq | hmem2
            · subst hEq
              rw [hty] at hty2
              exact hansp2 (hllm1 (Option.some.inj hty2))
            · exact hllm2 ⟨n2, hmem2, hty2⟩

/-- **C1, amended.**  If the Generation capability raises for *every*
provider call (both the OpenAI and the Gemini capability always fail)
during a workflow execution whose non-empty-query payload reaches an
`llm_engine` node in the computed execution order, then `execute`
returns normally — no exception escapes — but the result is **not** the
claimed `error: true` / `"Workflow execution failed: ..."` / status
`"failed"` record: the LLM component *catches* the generation failure
(`llm_engine.py` lines 116–120), so `execute` completes with
`error` absent (`false`), `_execution.status = "completed"`, and an
answer beginning `"Failed to generate response: "`. -/
theorem C1_generation_failure_completes (caps : ExecCaps) (σ : List String)
    (ls : LogServiceState) (definition : WorkflowDefinition) (payload : BasePayload)
    (uid wid : Option String)
    (ho : ∀ p m t mt, ∃ e, caps.openaiCap p m t mt = Except.error e)
    (hg : ∀ p m t mt, ∃ e, caps.geminiCap p m t mt = Except.error e)
    (hq0 : payload.query.getD "" ≠ "")
    (hllm : ∃ nid, nid ∈ topological_sort σ (definition.nodes.map toRaw) definition.edges ∧
      node_types_get definition.nodes nid = some "llm_engine") :
    ∃ res ls3, execute caps σ ls definition payload uid wid = Except.ok (res, ls3) ∧
      res.errorFlag = false ∧ res.meta.status = "completed" ∧
      strStartsWith res.answer "Failed to generate response: " = true := by
  obtain ⟨eid, se2, hse, hpres⟩ := start_execution_ok ls
    (resolveWorkflowId wid definition.id ("wf-" ++ toString ls.clock)) uid
    ((topological_sort σ (definition.nodes.map toRaw) definition.edges).length : Int)
  simp only [execute]
  rw [hse]
  show ∃ res ls3,
    (match runNodes caps definition.nodes payload eid
        (topological_sort σ (List.map toRaw definition.nodes) definition.edges) se2
        { query := some (if payload.query.getD "" ≠ "" then payload.query.getD ""
            else scanQuery definition.nodes
              (topological_sort σ (List.map toRaw definition.nodes) definition.edges)),
          context := none, answer := none, output := none, sources := none,
          scores := none } with
      | (ls2, Except.ok ctx) =>
          (match complete_execution ls2 eid ExecutionStatus.completed none with
           | Except.error e => Except.error e
           | Except.ok ls3 =>
               Except.ok
                 ({ answer :=
                      if has_component definition.nodes "llm_engine" = true then
                        ctx.answer.getD (ctx.output.getD "")
                      else if has_component definition.nodes "knowledge_base" = true then
                        (if ctx.context.getD "" ≠ "" then
                          "📚 Retrieved from documents:\n\n" ++ ctx.context.getD ""
                        else "No relevant documents found.")
                      else
                        ("Query received: " ++
                            if payload.query.getD "" ≠ "" then payload.query.getD ""
                            else scanQuery definition.nodes
                              (topological_sort σ (List.map toRaw definition.nodes)
                                definition.edges)) ++
                          "\n\n⚠️ No LLM node in workflow. Add an LLM node to generate AI responses.",
                    query := some (if payload.query.getD "" ≠ "" then payload.query.getD ""
                      else scanQuery definition.nodes
                        (topological_sort σ (List.map toRaw definition.nodes)
                          definition.edges)),
                    errorFlag := false,
                    meta :=
                      { execution_id := eid,
                        workflow_id := resolveWorkflowId wid definition.id
                          ("wf-" ++ toString ls.clock),
                        duration_seconds := 0, status := "completed",
                        components_used := present_components definition.nodes,
                        kb_used := has_component definition.nodes "knowledge_base",
                        llm_used := has_component definition.nodes "llm_engine",
                        context_length := (ctx.context.getD "").length,
                        error := none } },
                  ls3))
      | (ls2, Except.error e) =>
          (match log ls2 eid LogLevel.errorL ("Workflow execution failed: " ++ e)
              none none [("error", e)] with
           | Except.error e2 => Except.error e2
           | Except.ok r =>
               match complete_execution r.1 eid ExecutionStatus.failed (some e) with
               | Except.error e2 => Except.error e2
               | Except.ok ls4 =>
                   Except.ok
                     ({ answer := "Workflow execution failed: " ++ e, query := none,
                        errorFlag := true,
                        meta :=
                          { execution_id := eid,
                            workflow_id := resolveWorkflowId wid definition.id
                              ("wf-" ++ toString ls.clock),
                            duration_seconds := 0, status := "failed",
                            components_used := [], kb_used := false, llm_used := false,
                            context_length := 0, error := some e } },
                      ls4))) =
      Except.ok (res, ls3) ∧
    res.errorFlag = false ∧ res.meta.status = "completed" ∧
    strStartsWith res.answer "Failed to generate response: " = true
  have hquery : (if payload.query.getD "" ≠ "" then payload.query.getD ""
      else scanQuery definition.nodes
        (topological_sort σ (List.map toRaw definition.nodes) definition.edges)) ≠ "" := by
    rw [if_pos hq0]
    exact hq0
  obtain ⟨ls2, ctx2, hrun, hk, hql2, hansp, hllmf⟩ := runNodes_ok caps definition.nodes
    payload eid ho hg hq0
    (topological_sort σ (List.map toRaw definition.nodes) definition.edges) se2
    { query := some (if payload.query.getD "" ≠ "" then payload.query.getD ""
        else scanQuery definition.nodes
          (topological_sort σ (List.map toRaw definition.nodes) definition.edges)) }
    hpres ⟨_, rfl, hquery⟩
  rw [hrun]
  show ∃ res ls3,
    (match complete_execution ls2 eid ExecutionStatus.completed none with
     | Except.error e => Except.error e
     | Except.ok ls3 =>
         Except.ok
           ({ answer :=
                if has_component definition.nodes "llm_engine" = true then
                  ctx2.answer.getD (ctx2.output.getD "")
                else if has_component definition.nodes "knowledge_base" = true then
                  (if ctx2.context.getD "" ≠ "" then
                    "📚 Retrieved from documents:\n\n" ++ ctx2.context.getD ""
                  else "No relevant documents found.")
                else
                  ("Query received: " ++
                      if payload.query.getD "" ≠ "" then payload.query.getD ""
                      else scanQuery definition.nodes
                        (topological_sort σ (List.map toRaw definition.nodes)
                          definition.edges)) ++
                    "\n\n⚠️ No LLM node in workflow. Add an LLM node to generate AI responses.",
              query := some (if payload.query.getD "" ≠ "" then payload.query.getD ""
                else scanQuery definition.nodes
                  (topological_sort σ (List.map toRaw definition.nodes) definition.edges)),
              errorFlag := false,
              meta :=
                { execution_id := eid,
                  workflow_id := resolveWorkflowId wid definition.id
                    ("wf-" ++ toString ls.clock),
                  duration_seconds := 0, status := "completed",
                  components_used := present_components definition.nodes,
                  kb_used := has_component definition.nodes "knowledge_base",
                  llm_used := has_component definition.nodes "llm_engine",
                  context_length := (ctx2.context.getD "").length,
                  error := none } },
            ls3)) =
      Except.ok (res, ls3) ∧
    res.errorFlag = false ∧ res.meta.status = "completed" ∧
    strStartsWith res.answer "Failed to generate response: " = true
  obtain ⟨ls3f, hc⟩ := complete_execution_ok ls2 eid .completed none ((hk eid).trans hpres)
  rw [hc]
  refine ⟨_, ls3f, rfl, rfl, rfl, ?_⟩
  obtain ⟨e, he⟩ := hllmf hllm
  have hhl : has_component definition.nodes "llm_engine" = true := by
    obtain ⟨n2, hm2, hty2⟩ := hllm
    exact has_component_of_node_types definition.nodes n2 "llm_engine" hty2
  rw [hhl, he]
  exact strStartsWith_append _ _

/-- Concrete capabilities for the C1 scenario: both configured
providers' SDK calls always raise. -/
def C1caps : ExecCaps :=
  { storeCount := 0, embed := fun _ => .error "unused",
    search := fun _ _ => .error "unused",
    openai_configured := true, gemini_configured := true,
    openaiCap := fun _ _ _ _ => .error "openai down",
    geminiCap := fun _ _ _ _ => .error "gemini down",
    webSearch := fun _ => .ok "" }

/-- An input node feeding a Generation node. -/
def C1def : WorkflowDefinition :=
  { nodes := [{ id := "in1", type := "input" }, { id := "llm1", type := "llm" }],
    edges := [⟨"in1", "llm1"⟩] }

/-- **C1, counterexample to the claimed failure shape.**  With both
providers failing on every call and a query-bearing payload, `execute`
on an input→Generation workflow returns a record with `error` *absent*
(`false`), `_execution.status = "completed"` (not `"failed"`), and an
answer beginning `"Failed to generate response:"` — not
`"Workflow execution failed:"` — because `LLMEngineComponent.run`
catches the exhausted-fallback error instead of re-raising it. -/
theorem C1_counterexample :
    ((execute C1caps (validIds (C1def.nodes.map toRaw)) {} C1def { query := some "hi" }
        none none).map (fun p =>
      (p.1.errorFlag, p.1.meta.status,
        strStartsWith p.1.answer "Failed to generate response:",
        strStartsWith p.1.answer "Workflow execution failed:")))
      = Except.ok (false, "completed", true, false) := rfl

/-- Witness instantiating `C1_generation_failure_completes` at the
concrete C1 scenario. -/
theorem C1_generation_failure_completes_witness :
    ∃ res ls3, execute C1caps (validIds (C1def.nodes.map toRaw)) {} C1def
        { query := some "hi" } none none = Except.ok (res, ls3) ∧
      res.errorFlag = false ∧ res.meta.status = "completed" ∧
      strStartsWith res.answer "Failed to generate response: " = true :=
  C1_generation_failure_completes C1caps (validIds (C1def.nodes.map toRaw)) {} C1def
    { query := some "hi" } none none
    (fun _ _ _ _ => ⟨"openai down", rfl⟩)
    (fun _ _ _ _ => ⟨"gemini down", rfl⟩)
    (by decide)
    ⟨"llm1", by decide, by decide⟩

end Askyia
